import Mathlib

/-!
A shallow embedding of the core of the `rust-gameboy-emulator` repository:
the instruction decoder (`src/instructions.rs`), the memory bus
(`src/emulator/memory_bus.rs`), the CPU interpreter (`src/emulator/cpu.rs`),
the split-out ALU module (`src/emulator/cpu/alu.rs`), and the PPU
(`src/emulator/ppu.rs`), together with theorems settling the specification
claims about them.

Machine integers are embedded as `Nat` with explicit masking (`% 256`,
`% 65536`) wherever the source wraps.  Rust panics (`unimplemented!`,
`unreachable!`, `todo!`, index out of bounds, explicit `panic!`) are
embedded as `Option.none`.
-/

namespace GB

/-- `bit_field`'s `get_bits(lo..hi)`: bits `lo` (inclusive) to `hi`
(exclusive) of a natural number. -/
def getBits (n lo hi : Nat) : Nat := (n >>> lo) % (2 ^ (hi - lo))

/-- `bit_field`'s `set_bit` on an 8-bit value. -/
def setBit8 (n i : Nat) (b : Bool) : Nat :=
  if b then n ||| (1 <<< i) else n &&& (255 ^^^ (1 <<< i))

/-- A byte interpreted as Rust `i8` (two's complement). -/
def i8val (b : Nat) : Int := if b < 128 then (b : Int) else (b : Int) - 256

/-- `u8::wrapping_add`. -/
def wadd8 (a b : Nat) : Nat := (a + b) % 256

/-- `u8::wrapping_sub`. -/
def wsub8 (a b : Nat) : Nat := (a + 256 - b % 256) % 256

/-- `u16::wrapping_add`. -/
def wadd16 (a b : Nat) : Nat := (a + b) % 65536

/-- `u16::wrapping_sub`. -/
def wsub16 (a b : Nat) : Nat := (a + 65536 - b % 65536) % 65536

/-! ## Instruction model (`src/instructions.rs`) -/

inductive Condition where
  | NZ | Z | NC | C
  deriving DecidableEq, Repr

/-- `impl From<u8> for Condition`; the source's `unreachable!()` arm can
only be hit with more than 2 bits, which no caller passes. -/
def Condition.ofU8 (n : Nat) : Condition :=
  match n with
  | 0 => .NZ
  | 1 => .Z
  | 2 => .NC
  | _ => .C

inductive Register16 where
  | BC | DE | HL | SP
  deriving DecidableEq, Repr

/-- `impl From<u8> for Register16`. -/
def Register16.ofU8 (n : Nat) : Register16 :=
  match n with
  | 0 => .BC
  | 1 => .DE
  | 2 => .HL
  | _ => .SP

inductive Register8 where
  | B | C | D | E | H | L | IndirectHL | A
  deriving DecidableEq, Repr

/-- `impl From<u8> for Register8`. -/
def Register8.ofU8 (n : Nat) : Register8 :=
  match n with
  | 0 => .B
  | 1 => .C
  | 2 => .D
  | 3 => .E
  | 4 => .H
  | 5 => .L
  | 6 => .IndirectHL
  | _ => .A

inductive Register16Indirect where
  | BC | DE | HLI | HLD
  deriving DecidableEq, Repr

/-- `impl From<u8> for Register16Indirect`. -/
def Register16Indirect.ofU8 (n : Nat) : Register16Indirect :=
  match n with
  | 0 => .BC
  | 1 => .DE
  | 2 => .HLI
  | _ => .HLD

inductive Register16Stack where
  | BC | DE | HL | AF
  deriving DecidableEq, Repr

/-- `impl From<u8> for Register16Stack`. -/
def Register16Stack.ofU8 (n : Nat) : Register16Stack :=
  match n with
  | 0 => .BC
  | 1 => .DE
  | 2 => .HL
  | _ => .AF

inductive AccumulatorFlagOp where
  | RotateLeftCarryA | RotateRightCarryA | RotateLeftA | RotateRightA
  | DecimalAdjustAfterAddition | ComplementAccumulator | SetCarryFlag
  | ComplementCarryFlag
  deriving DecidableEq, Repr

/-- `impl From<u8> for AccumulatorFlagOp`. -/
def AccumulatorFlagOp.ofU8 (n : Nat) : AccumulatorFlagOp :=
  match n with
  | 0 => .RotateLeftCarryA
  | 1 => .RotateRightCarryA
  | 2 => .RotateLeftA
  | 3 => .RotateRightA
  | 4 => .DecimalAdjustAfterAddition
  | 5 => .ComplementAccumulator
  | 6 => .SetCarryFlag
  | _ => .ComplementCarryFlag

inductive AluOp where
  | Add | AddWithCarry | Subtract | SubtractWithCarry | And | Xor | Or
  | Compare
  deriving DecidableEq, Repr

/-- `impl From<u8> for AluOp`. -/
def AluOp.ofU8 (n : Nat) : AluOp :=
  match n with
  | 0 => .Add
  | 1 => .AddWithCarry
  | 2 => .Subtract
  | 3 => .SubtractWithCarry
  | 4 => .And
  | 5 => .Xor
  | 6 => .Or
  | _ => .Compare

inductive BitwiseOp where
  | RotateLeftCarry | RotateRightCarry | RotateLeft | RotateRight
  | ShiftLeftArithmetic | ShiftRightArithmetic | Swap | ShiftRightLogical
  deriving DecidableEq, Repr

/-- `impl From<u8> for BitwiseOp`. -/
def BitwiseOp.ofU8 (n : Nat) : BitwiseOp :=
  match n with
  | 0 => .RotateLeftCarry
  | 1 => .RotateRightCarry
  | 2 => .RotateLeft
  | 3 => .RotateRight
  | 4 => .ShiftLeftArithmetic
  | 5 => .ShiftRightArithmetic
  | 6 => .Swap
  | _ => .ShiftRightLogical

/-- `enum Instruction`.  Immediate bytes are `Nat` (`u8`/`u16`), signed
relative offsets are `Int` (`i8`). -/
inductive Instruction where
  | Nop
  | LoadSP (imm : Nat)
  | Stop
  | JumpRelative (rel : Int)
  | JumpRelativeConditional (cond : Condition) (rel : Int)
  | LoadImmediate16 (reg : Register16) (imm : Nat)
  | AddHLRegister (reg : Register16)
  | LoadIndirectA (reg : Register16Indirect)
  | LoadAIndirect (reg : Register16Indirect)
  | Increment16 (reg : Register16)
  | Decrement16 (reg : Register16)
  | Increment (reg : Register8)
  | Decrement (reg : Register8)
  | LoadImmediate (reg : Register8) (imm : Nat)
  | AccumulatorFlag (op : AccumulatorFlagOp)
  | Halt
  | Load (dst src : Register8)
  | Alu (op : AluOp) (reg : Register8)
  | RetConditional (cond : Condition)
  | LoadHighPageA (off : Nat)
  | AddSp (rel : Int)
  | LoadAHighPage (off : Nat)
  | LoadHLSP (rel : Int)
  | Pop (reg : Register16Stack)
  | Ret
  | RetInterrupt
  | JumpHL
  | LoadSPHL
  | JumpConditional (cond : Condition) (addr : Nat)
  | LoadHighPageIndirectA
  | LoadAHighPageIndirect
  | LoadIndirectImmediateA (addr : Nat)
  | LoadAIndirectImmediate (addr : Nat)
  | Jump (addr : Nat)
  | DisableInterrupts
  | EnableInterrupts
  | CallConditional (cond : Condition) (addr : Nat)
  | Call (addr : Nat)
  | Push (reg : Register16Stack)
  | AluImmediate (op : AluOp) (imm : Nat)
  | Reset (exp : Nat)
  | Bitwise (op : BitwiseOp) (reg : Register8)
  | Bit (bit : Nat) (reg : Register8)
  | ResetBit (bit : Nat) (reg : Register8)
  | SetBit (bit : Nat) (reg : Register8)
  deriving DecidableEq, Repr

/-- `Instruction::byte_len`. -/
def Instruction.byte_len : Instruction → Nat
  | .Nop => 1
  | .LoadSP _ => 3
  | .Stop => 2
  | .JumpRelative _ => 2
  | .JumpRelativeConditional _ _ => 2
  | .LoadImmediate16 _ _ => 3
  | .AddHLRegister _ => 1
  | .LoadIndirectA _ => 1
  | .LoadAIndirect _ => 1
  | .Increment16 _ => 1
  | .Decrement16 _ => 1
  | .Increment _ => 1
  | .Decrement _ => 1
  | .LoadImmediate _ _ => 2
  | .AccumulatorFlag _ => 1
  | .Halt => 1
  | .Load _ _ => 1
  | .Alu _ _ => 1
  | .RetConditional _ => 1
  | .LoadHighPageA _ => 2
  | .AddSp _ => 2
  | .LoadAHighPage _ => 2
  | .LoadHLSP _ => 2
  | .Pop _ => 1
  | .Ret => 1
  | .RetInterrupt => 1
  | .JumpHL => 1
  | .LoadSPHL => 1
  | .JumpConditional _ _ => 3
  | .LoadHighPageIndirectA => 1
  | .LoadAHighPageIndirect => 1
  | .LoadIndirectImmediateA _ => 3
  | .LoadAIndirectImmediate _ => 3
  | .Jump _ => 3
  | .DisableInterrupts => 1
  | .EnableInterrupts => 1
  | .CallConditional _ _ => 3
  | .Call _ => 3
  | .Push _ => 1
  | .AluImmediate _ _ => 2
  | .Reset _ => 1
  | .Bitwise _ _ => 2
  | .Bit _ _ => 2
  | .ResetBit _ _ => 2
  | .SetBit _ _ => 2

/-- Modelled from the spec: the per-opcode M-cycle cost table
(`Instruction::ticks(action_taken)`) is called by `CPU::tick` but its
definition is not part of this source snapshot; the values follow the
spec's cost table in §4.1 (costs for `LD A,(rr)` / `LD (rr),A`, absent
from that table, use the standard DMG value 2). -/
def Instruction.ticks (i : Instruction) (action_taken : Bool) : Nat :=
  match i with
  | .Nop => 1
  | .LoadSP _ => 5
  | .Stop => 1
  | .JumpRelative _ => 3
  | .JumpRelativeConditional _ _ => if action_taken then 3 else 2
  | .LoadImmediate16 _ _ => 3
  | .AddHLRegister _ => 2
  | .LoadIndirectA _ => 2
  | .LoadAIndirect _ => 2
  | .Increment16 _ => 2
  | .Decrement16 _ => 2
  | .Increment r => if r = .IndirectHL then 3 else 1
  | .Decrement r => if r = .IndirectHL then 3 else 1
  | .LoadImmediate r _ => if r = .IndirectHL then 3 else 2
  | .AccumulatorFlag _ => 1
  | .Halt => 1
  | .Load d s => if d = .IndirectHL ∨ s = .IndirectHL then 2 else 1
  | .Alu _ r => if r = .IndirectHL then 2 else 1
  | .RetConditional _ => if action_taken then 5 else 2
  | .LoadHighPageA _ => 3
  | .AddSp _ => 4
  | .LoadAHighPage _ => 3
  | .LoadHLSP _ => 3
  | .Pop _ => 3
  | .Ret => 4
  | .RetInterrupt => 4
  | .JumpHL => 1
  | .LoadSPHL => 2
  | .JumpConditional _ _ => if action_taken then 4 else 3
  | .LoadHighPageIndirectA => 2
  | .LoadAHighPageIndirect => 2
  | .LoadIndirectImmediateA _ => 4
  | .LoadAIndirectImmediate _ => 4
  | .Jump _ => 4
  | .DisableInterrupts => 1
  | .EnableInterrupts => 1
  | .CallConditional _ _ => if action_taken then 6 else 3
  | .Call _ => 6
  | .Push _ => 4
  | .AluImmediate _ _ => 2
  | .Reset _ => 4
  | .Bitwise _ r => if r = .IndirectHL then 4 else 2
  | .Bit _ r => if r = .IndirectHL then 3 else 2
  | .ResetBit _ r => if r = .IndirectHL then 4 else 2
  | .SetBit _ r => if r = .IndirectHL then 4 else 2

/-- nom's `u8` parser: one byte or an EOF error. -/
def pu8 : List Nat → Option (List Nat × Nat)
  | [] => none
  | b :: rest => some (rest, b)

/-- nom's `le_u16` parser: two bytes, little-endian. -/
def ple_u16 : List Nat → Option (List Nat × Nat)
  | lo :: hi :: rest => some (rest, hi <<< 8 ||| lo)
  | _ => none

/-- nom's `i8` parser: one byte as a signed value. -/
def pi8 : List Nat → Option (List Nat × Int)
  | [] => none
  | b :: rest => some (rest, i8val b)

/-- `Instruction::parse_prefixed_cb`.  The `p3` selector is two bits, so
the source's `_ => unimplemented!()` arm is unreachable. -/
def Instruction.parse_prefixed_cb (opcode : Nat) : Instruction :=
  let p1 := getBits opcode 0 3
  let p2 := getBits opcode 3 6
  let p3 := getBits opcode 6 8
  if p3 = 0 then .Bitwise (BitwiseOp.ofU8 p2) (Register8.ofU8 p1)
  else if p3 = 1 then .Bit p2 (Register8.ofU8 p1)
  else if p3 = 2 then .ResetBit p2 (Register8.ofU8 p1)
  else .SetBit p2 (Register8.ofU8 p1)

/-- `Instruction::parse`.  The match arms appear in source order; the
final fallthrough arm (`unimplemented!()` after printing "Illegal
instruction") is embedded as `none`. -/
def Instruction.parse (input : List Nat) : Option (List Nat × Instruction) :=
  match pu8 input with
  | none => none
  | some (rest, opcode) =>
    let p1 := getBits opcode 0 3
    let p2 := getBits opcode 3 6
    let p3 := getBits opcode 6 8
    -- Group one
    if p3 = 0 ∧ p2 = 0 ∧ p1 = 0 then some (rest, .Nop)
    else if p3 = 0 ∧ p2 = 1 ∧ p1 = 0 then
      (ple_u16 rest).map fun (r, v) => (r, .LoadSP v)
    else if p3 = 0 ∧ p2 = 2 ∧ p1 = 0 then some (rest, .Stop)
    else if p3 = 0 ∧ p2 = 3 ∧ p1 = 0 then
      (pi8 rest).map fun (r, v) => (r, .JumpRelative v)
    else if p3 = 0 ∧ p1 = 0 ∧ Nat.testBit p2 2 then
      (pi8 rest).map fun (r, v) =>
        (r, .JumpRelativeConditional (Condition.ofU8 (getBits p2 0 2)) v)
    else if p3 = 0 ∧ p1 = 1 ∧ Nat.testBit p2 0 = false then
      (ple_u16 rest).map fun (r, v) =>
        (r, .LoadImmediate16 (Register16.ofU8 (getBits p2 1 3)) v)
    else if p3 = 0 ∧ p1 = 1 ∧ Nat.testBit p2 0 = true then
      some (rest, .AddHLRegister (Register16.ofU8 (getBits p2 1 3)))
    else if p3 = 0 ∧ p1 = 2 ∧ Nat.testBit p2 0 = false then
      some (rest, .LoadIndirectA (Register16Indirect.ofU8 (getBits p2 1 3)))
    else if p3 = 0 ∧ p1 = 2 ∧ Nat.testBit p2 0 = true then
      some (rest, .LoadAIndirect (Register16Indirect.ofU8 (getBits p2 1 3)))
    else if p3 = 0 ∧ p1 = 3 ∧ Nat.testBit p2 0 = false then
      some (rest, .Increment16 (Register16.ofU8 (getBits p2 1 3)))
    else if p3 = 0 ∧ p1 = 3 ∧ Nat.testBit p2 0 = true then
      some (rest, .Decrement16 (Register16.ofU8 (getBits p2 1 3)))
    else if p3 = 0 ∧ p1 = 4 then some (rest, .Increment (Register8.ofU8 p2))
    else if p3 = 0 ∧ p1 = 5 then some (rest, .Decrement (Register8.ofU8 p2))
    else if p3 = 0 ∧ p1 = 6 then
      (pu8 rest).map fun (r, v) => (r, .LoadImmediate (Register8.ofU8 p2) v)
    else if p3 = 0 ∧ p1 = 7 then
      some (rest, .AccumulatorFlag (AccumulatorFlagOp.ofU8 p2))
    -- Group 2
    else if p3 = 1 ∧ p2 = 6 ∧ p1 = 6 then some (rest, .Halt)
    else if p3 = 1 then
      some (rest, .Load (Register8.ofU8 p2) (Register8.ofU8 p1))
    else if p3 = 2 then
      some (rest, .Alu (AluOp.ofU8 p2) (Register8.ofU8 p1))
    else if p3 = 3 ∧ p1 = 0 ∧ Nat.testBit p2 2 = false then
      some (rest, .RetConditional (Condition.ofU8 (getBits p2 0 2)))
    else if p3 = 3 ∧ p2 = 4 ∧ p1 = 0 then
      (pu8 rest).map fun (r, v) => (r, .LoadHighPageA v)
    else if p3 = 3 ∧ p2 = 5 ∧ p1 = 0 then
      (pi8 rest).map fun (r, v) => (r, .AddSp v)
    else if p3 = 3 ∧ p2 = 6 ∧ p1 = 0 then
      (pu8 rest).map fun (r, v) => (r, .LoadAHighPage v)
    else if p3 = 3 ∧ p2 = 7 ∧ p1 = 0 then
      (pi8 rest).map fun (r, v) => (r, .LoadHLSP v)
    else if p3 = 3 ∧ p1 = 1 ∧ Nat.testBit p2 0 = false then
      some (rest, .Pop (Register16Stack.ofU8 (getBits p2 1 3)))
    else if p3 = 3 ∧ p1 = 1 ∧ Nat.testBit p2 0 = true then
      let instr : Instruction :=
        match getBits p2 1 3 with
        | 0 => .Ret
        | 1 => .RetInterrupt
        | 2 => .JumpHL
        | _ => .LoadSPHL
      some (rest, instr)
    else if p3 = 3 ∧ p1 = 2 ∧ Nat.testBit p2 2 = false then
      (ple_u16 rest).map fun (r, v) =>
        (r, .JumpConditional (Condition.ofU8 (getBits p2 0 2)) v)
    else if p3 = 3 ∧ p2 = 4 ∧ p1 = 2 then some (rest, .LoadHighPageIndirectA)
    else if p3 = 3 ∧ p2 = 5 ∧ p1 = 2 then
      (ple_u16 rest).map fun (r, v) => (r, .LoadIndirectImmediateA v)
    else if p3 = 3 ∧ p2 = 6 ∧ p1 = 2 then some (rest, .LoadAHighPageIndirect)
    else if p3 = 3 ∧ p2 = 7 ∧ p1 = 2 then
      (ple_u16 rest).map fun (r, v) => (r, .LoadAIndirectImmediate v)
    -- Group 3
    else if p3 = 3 ∧ p2 = 0 ∧ p1 = 3 then
      (ple_u16 rest).map fun (r, v) => (r, .Jump v)
    -- CB-prefixed
    else if p3 = 3 ∧ p2 = 1 ∧ p1 = 3 then
      (pu8 rest).map fun (r, v) => (r, Instruction.parse_prefixed_cb v)
    else if p3 = 3 ∧ p2 = 6 ∧ p1 = 3 then some (rest, .DisableInterrupts)
    else if p3 = 3 ∧ p2 = 7 ∧ p1 = 3 then some (rest, .EnableInterrupts)
    else if p3 = 3 ∧ p1 = 4 ∧ Nat.testBit p2 2 = false then
      (ple_u16 rest).map fun (r, v) =>
        (r, .CallConditional (Condition.ofU8 (getBits p2 0 2)) v)
    else if p3 = 3 ∧ p2 = 1 ∧ p1 = 5 then
      (ple_u16 rest).map fun (r, v) => (r, .Call v)
    else if p3 = 3 ∧ p1 = 5 ∧ Nat.testBit p2 0 = false then
      some (rest, .Push (Register16Stack.ofU8 (getBits p2 1 3)))
    else if p3 = 3 ∧ p1 = 6 then
      (pu8 rest).map fun (r, v) => (r, .AluImmediate (AluOp.ofU8 p2) v)
    else if p3 = 3 ∧ p1 = 7 then some (rest, .Reset p2)
    else none

/-! ## Memory bus (`src/emulator/memory_bus.rs`)

Locks and `RefCell` borrows cannot fail in the single-threaded embedding,
so the `try_lock`/`try_borrow` fallback paths are never taken.  Reads of
the `program` vector out of bounds (an index panic in Rust) and the final
`unimplemented!()` / `panic!` match arms are embedded as `none`. -/

def LCDC : Nat := 0xFF40
def SCROLL_Y : Nat := 0xFF42
def SCROLL_X : Nat := 0xFF43
def LCD_Y : Nat := 0xFF44
def PALLETE : Nat := 0xFF47
def IF : Nat := 0xFF0F
def IE : Nat := 0xFFFF

structure LCD where
  lcd_control : Nat
  scroll_y : Nat
  scroll_x : Nat
  lcd_y : Nat
  lcd_y_cmp : Nat
  background_pallete : Nat
  window_y : Nat
  window_x : Nat
  deriving Repr, DecidableEq

/-- `impl Default for LCD`. -/
def LCD.default : LCD :=
  { lcd_control := 0b10000000, scroll_y := 0, scroll_x := 0, lcd_y := 0,
    lcd_y_cmp := 0, background_pallete := 0, window_y := 0, window_x := 0 }

inductive Interrupt where
  | VBlank | LCDStat | Timer | Serial | Joypad
  deriving DecidableEq, Repr

structure Interrupts where
  vblank_enabled : Bool
  lcd_stat_enabled : Bool
  timer_enabled : Bool
  serial_enabled : Bool
  joypad_enabled : Bool
  vblank_requested : Bool
  lcd_stat_requested : Bool
  timer_requested : Bool
  serial_requested : Bool
  joypad_requested : Bool
  deriving Repr, DecidableEq

def Interrupts.default : Interrupts :=
  { vblank_enabled := false, lcd_stat_enabled := false, timer_enabled := false,
    serial_enabled := false, joypad_enabled := false, vblank_requested := false,
    lcd_stat_requested := false, timer_requested := false,
    serial_requested := false, joypad_requested := false }

def Interrupts.get_interrupt_enable (i : Interrupts) : Nat :=
  setBit8 (setBit8 (setBit8 (setBit8 (setBit8 0 0 i.vblank_enabled)
    1 i.lcd_stat_enabled) 2 i.timer_enabled) 3 i.serial_enabled)
    4 i.joypad_enabled

def Interrupts.set_interrupt_enable (i : Interrupts) (byte : Nat) : Interrupts :=
  { i with
    vblank_enabled := Nat.testBit byte 0,
    lcd_stat_enabled := Nat.testBit byte 1,
    timer_enabled := Nat.testBit byte 2,
    serial_enabled := Nat.testBit byte 3,
    joypad_enabled := Nat.testBit byte 4 }

def Interrupts.get_interrupt_flag (i : Interrupts) : Nat :=
  setBit8 (setBit8 (setBit8 (setBit8 (setBit8 0 0 i.vblank_requested)
    1 i.lcd_stat_requested) 2 i.timer_requested) 3 i.serial_requested)
    4 i.joypad_requested

def Interrupts.set_interrupt_flag (i : Interrupts) (byte : Nat) : Interrupts :=
  { i with
    vblank_requested := Nat.testBit byte 0,
    lcd_stat_requested := Nat.testBit byte 1,
    timer_requested := Nat.testBit byte 2,
    serial_requested := Nat.testBit byte 3,
    joypad_requested := Nat.testBit byte 4 }

/-- The RAM regions are embedded as total maps from the array index used
by the source (`addr - region_base`) to the stored byte. -/
structure MemoryBus where
  program : List Nat
  wram1 : Nat → Nat
  wram2 : Nat → Nat
  vram : Nat → Nat
  oam : Nat → Nat
  hram : Nat → Nat
  lcd : LCD
  interrupts : Interrupts

/-- `MemoryBus::new`: stores the ROM bytes and zero-initialises RAM. -/
def MemoryBus.new (program : List Nat) : MemoryBus :=
  { program := program, wram1 := fun _ => 0, wram2 := fun _ => 0,
    vram := fun _ => 0, oam := fun _ => 0, hram := fun _ => 0,
    lcd := LCD.default, interrupts := Interrupts.default }

/-- `MemoryBus::get_u8`; arms in source order, the fallthrough
`unimplemented!()` arm is `none`. -/
def MemoryBus.get_u8 (bus : MemoryBus) (addr : Nat) : Option Nat :=
  if addr ≤ 0x7FFF then bus.program.get? addr
  else if 0x8000 ≤ addr ∧ addr ≤ 0x9FFF then some (bus.vram (addr - 0x8000))
  else if 0xC000 ≤ addr ∧ addr ≤ 0xCFFF then some (bus.wram1 (addr - 0xC000))
  else if 0xD000 ≤ addr ∧ addr ≤ 0xDFFF then some (bus.wram2 (addr - 0xD000))
  else if 0xFE00 ≤ addr ∧ addr ≤ 0xFE9F then some (bus.oam (addr - 0xFE00))
  else if 0xFF40 ≤ addr ∧ addr ≤ 0xFF4B then
    if addr = LCDC then some bus.lcd.lcd_control
    else if addr = SCROLL_Y then some bus.lcd.scroll_y
    else if addr = SCROLL_X then some bus.lcd.scroll_x
    else if addr = LCD_Y then some bus.lcd.lcd_y
    else if addr = 0xFF45 then some bus.lcd.lcd_y_cmp
    else if addr = PALLETE then some bus.lcd.background_pallete
    else if addr = 0xFF4A then some bus.lcd.window_y
    else if addr = 0xFF4B then some bus.lcd.window_x
    else none
  else if addr = IF then some bus.interrupts.get_interrupt_flag
  else if addr = IE then some bus.interrupts.get_interrupt_enable
  else if 0xFF00 ≤ addr ∧ addr ≤ 0xFF7F then some 0x00
  else if 0xFF80 ≤ addr ∧ addr ≤ 0xFFFE then some (bus.hram (addr - 0xFF80))
  else none

/-- `MemoryBus::get_instr`: four consecutive bytes starting at `addr`. -/
def MemoryBus.get_instr (bus : MemoryBus) (addr : Nat) : Option (List Nat) := do
  let b0 ← bus.get_u8 (addr + 0)
  let b1 ← bus.get_u8 (addr + 1)
  let b2 ← bus.get_u8 (addr + 2)
  let b3 ← bus.get_u8 (addr + 3)
  some [b0, b1, b2, b3]

/-- `MemoryBus::write_u8`; arms in source order.  ROM, prohibited-zone and
unimplemented-IO writes are ignored (warn only); the fallthrough
`panic!` arm is `none`. -/
def MemoryBus.write_u8 (bus : MemoryBus) (addr byte : Nat) : Option MemoryBus :=
  if addr ≤ 0x7FFF then some bus
  else if 0x8000 ≤ addr ∧ addr ≤ 0x9FFF then
    some { bus with vram := fun i => if i = addr - 0x8000 then byte else bus.vram i }
  else if 0xC000 ≤ addr ∧ addr ≤ 0xCFFF then
    some { bus with wram1 := fun i => if i = addr - 0xC000 then byte else bus.wram1 i }
  else if 0xD000 ≤ addr ∧ addr ≤ 0xDFFF then
    some { bus with wram2 := fun i => if i = addr - 0xD000 then byte else bus.wram2 i }
  else if 0xFE00 ≤ addr ∧ addr ≤ 0xFE9F then
    some { bus with oam := fun i => if i = addr - 0xFE00 then byte else bus.oam i }
  else if 0xFEA0 ≤ addr ∧ addr ≤ 0xFEFF then some bus
  else if 0xFF40 ≤ addr ∧ addr ≤ 0xFF4B then
    if addr = LCDC then
      some { bus with lcd := { bus.lcd with
        lcd_control := byte,
        lcd_y := if Nat.testBit byte 7 then bus.lcd.lcd_y else 0 } }
    else if addr = SCROLL_Y then
      some { bus with lcd := { bus.lcd with scroll_y := byte } }
    else if addr = SCROLL_X then
      some { bus with lcd := { bus.lcd with scroll_x := byte } }
    else if addr = LCD_Y then
      some { bus with lcd := { bus.lcd with lcd_y := byte } }
    else if addr = 0xFF45 then
      some { bus with lcd := { bus.lcd with lcd_y_cmp := byte } }
    else if addr = PALLETE then
      some { bus with lcd := { bus.lcd with background_pallete := byte } }
    else if addr = 0xFF4A then
      some { bus with lcd := { bus.lcd with window_y := byte } }
    else if addr = 0xFF4B then
      some { bus with lcd := { bus.lcd with window_x := byte } }
    else some bus
  else if addr = 0xFF0F then
    some { bus with interrupts := bus.interrupts.set_interrupt_flag byte }
  else if addr = 0xFFFF then
    some { bus with interrupts := bus.interrupts.set_interrupt_enable byte }
  else if 0xFF00 ≤ addr ∧ addr ≤ 0xFF7F then some bus
  else if 0xFF80 ≤ addr ∧ addr ≤ 0xFFFE then
    some { bus with hram := fun i => if i = addr - 0xFF80 then byte else bus.hram i }
  else none

/-- `MemoryBus::write_stack`: pre-decrement SP, then write. -/
def MemoryBus.write_stack (bus : MemoryBus) (sp byte : Nat) :
    Option (MemoryBus × Nat) :=
  let sp := wsub16 sp 1
  (bus.write_u8 sp byte).map fun b => (b, sp)

/-- `MemoryBus::write_stack_16`: writes the low byte first (at `sp-1`),
then the high byte (at `sp-2`). -/
def MemoryBus.write_stack_16 (bus : MemoryBus) (sp word : Nat) :
    Option (MemoryBus × Nat) := do
  let (bus, sp) ← bus.write_stack sp (getBits word 0 8)
  bus.write_stack sp (getBits word 8 16)

/-- `MemoryBus::get_stack`: read at SP, then post-increment. -/
def MemoryBus.get_stack (bus : MemoryBus) (sp : Nat) : Option (Nat × Nat) :=
  (bus.get_u8 sp).map fun v => (v, wadd16 sp 1)

/-- `MemoryBus::get_stack_16`: reads the high byte at SP, the low byte at
SP+1. -/
def MemoryBus.get_stack_16 (bus : MemoryBus) (sp : Nat) : Option (Nat × Nat) := do
  let (upper, sp) ← bus.get_stack sp
  let (lower, sp) ← bus.get_stack sp
  some (upper <<< 8 ||| lower, sp)

/-- `MemoryBus::request_interrupt`. -/
def MemoryBus.request_interrupt (bus : MemoryBus) (i : Interrupt) : MemoryBus :=
  match i with
  | .VBlank => { bus with interrupts := { bus.interrupts with vblank_requested := true } }
  | .LCDStat => { bus with interrupts := { bus.interrupts with lcd_stat_requested := true } }
  | .Timer => { bus with interrupts := { bus.interrupts with timer_requested := true } }
  | .Serial => { bus with interrupts := { bus.interrupts with serial_requested := true } }
  | .Joypad => { bus with interrupts := { bus.interrupts with joypad_requested := true } }

/-! ## CPU core (`src/emulator/cpu.rs`) -/

inductive Flag where
  | Z | N | H | C
  deriving DecidableEq, Repr

structure CPU where
  Accumulator : Nat
  Flags : Nat
  B : Nat
  C : Nat
  D : Nat
  E : Nat
  H : Nat
  L : Nat
  SP : Nat
  PC : Nat
  stop : Bool
  halted : Bool
  IME : Bool
  deriving Repr, DecidableEq

/-- `impl Default for CPU`: everything zero except `PC = 0x100`. -/
def CPU.default : CPU :=
  { Accumulator := 0, Flags := 0, B := 0, C := 0, D := 0, E := 0, H := 0,
    L := 0, SP := 0, PC := 0x100, stop := false, halted := false,
    IME := false }

def CPU.get_af (cpu : CPU) : Nat := cpu.Accumulator <<< 8 ||| cpu.Flags

def CPU.get_bc (cpu : CPU) : Nat := cpu.B <<< 8 ||| cpu.C

def CPU.get_de (cpu : CPU) : Nat := cpu.D <<< 8 ||| cpu.E

def CPU.get_hl (cpu : CPU) : Nat := cpu.H <<< 8 ||| cpu.L

def CPU.set_flag (cpu : CPU) (flag : Flag) (value : Bool) : CPU :=
  match flag with
  | .Z => { cpu with Flags := setBit8 cpu.Flags 7 value }
  | .N => { cpu with Flags := setBit8 cpu.Flags 6 value }
  | .H => { cpu with Flags := setBit8 cpu.Flags 5 value }
  | .C => { cpu with Flags := setBit8 cpu.Flags 4 value }

def CPU.get_flag (cpu : CPU) (flag : Flag) : Bool :=
  match flag with
  | .Z => Nat.testBit cpu.Flags 7
  | .N => Nat.testBit cpu.Flags 6
  | .H => Nat.testBit cpu.Flags 5
  | .C => Nat.testBit cpu.Flags 4

/-- `CPU::next_instruction`: fetch 4 bytes at PC, decode, advance PC by
the instruction's byte length.  A failed fetch or decode is a panic
(`expect`) in the source, hence `none`. -/
def CPU.next_instruction (cpu : CPU) (bus : MemoryBus) :
    Option (CPU × Instruction) := do
  let bytes ← bus.get_instr cpu.PC
  let (_, actual_instr) ← Instruction.parse bytes
  some ({ cpu with PC := wadd16 cpu.PC actual_instr.byte_len }, actual_instr)

/-- `u8::trailing_zeros` restricted to byte-sized inputs. -/
def trailingZeros8 (n : Nat) : Nat :=
  if Nat.testBit n 0 then 0
  else if Nat.testBit n 1 then 1
  else if Nat.testBit n 2 then 2
  else if Nat.testBit n 3 then 3
  else if Nat.testBit n 4 then 4
  else if Nat.testBit n 5 then 5
  else if Nat.testBit n 6 then 6
  else if Nat.testBit n 7 then 7
  else 8

/-- `CPU::handle_interrupt`.  Returns the M-cycle cost of a dispatch (4 in
the source) or 0 when nothing was dispatched; the `unreachable!()` arm for
`n >= 5` and a panicking stack write are `none`. -/
def CPU.handle_interrupt (cpu : CPU) (bus : MemoryBus) :
    Option (CPU × MemoryBus × Nat) :=
  if ¬cpu.IME ∧ ¬cpu.halted then some (cpu, bus, 0)
  else do
    let interrupts_requested ← bus.get_u8 IF
    let enabled ← bus.get_u8 IE
    let triggered := interrupts_requested &&& enabled
    if triggered = 0 then some (cpu, bus, 0)
    else
      let cpu := { cpu with halted := false }
      if ¬cpu.IME then some (cpu, bus, 0)
      else do
        let cpu := { cpu with IME := false }
        let n := trailingZeros8 triggered
        if 5 ≤ n then none
        else do
          let bus ← bus.write_u8 IF (setBit8 interrupts_requested n false)
          let (bus, sp) ← bus.write_stack_16 cpu.SP cpu.PC
          some ({ cpu with SP := sp, PC := 0x0040 ||| (n <<< 3) }, bus, 4)

/-- `CPU::read_register`; reading through `(HL)` can fail on the bus. -/
def CPU.read_register (cpu : CPU) (register : Register8) (bus : MemoryBus) :
    Option Nat :=
  match register with
  | .B => some cpu.B
  | .C => some cpu.C
  | .D => some cpu.D
  | .E => some cpu.E
  | .H => some cpu.H
  | .L => some cpu.L
  | .IndirectHL => bus.get_u8 cpu.get_hl
  | .A => some cpu.Accumulator

/-- `CPU::write_register_immediate`. -/
def CPU.write_register_immediate (cpu : CPU) (target : Register8)
    (immediate : Nat) (bus : MemoryBus) : Option (CPU × MemoryBus) :=
  match target with
  | .B => some ({ cpu with B := immediate }, bus)
  | .C => some ({ cpu with C := immediate }, bus)
  | .D => some ({ cpu with D := immediate }, bus)
  | .E => some ({ cpu with E := immediate }, bus)
  | .H => some ({ cpu with H := immediate }, bus)
  | .L => some ({ cpu with L := immediate }, bus)
  | .IndirectHL => (bus.write_u8 cpu.get_hl immediate).map fun b => (cpu, b)
  | .A => some ({ cpu with Accumulator := immediate }, bus)

/-- `CPU::write_register`. -/
def CPU.write_register (cpu : CPU) (target source : Register8)
    (bus : MemoryBus) : Option (CPU × MemoryBus) := do
  let read ← cpu.read_register source bus
  cpu.write_register_immediate target read bus

/-- `CPU::get_indirect`: HLI/HLD return the current HL and post-in/decrement
it with 16-bit wrap. -/
def CPU.get_indirect (cpu : CPU) (register : Register16Indirect) : CPU × Nat :=
  match register with
  | .BC => (cpu, cpu.get_bc)
  | .DE => (cpu, cpu.get_de)
  | .HLI =>
    let addr := cpu.get_hl
    let addr1 := wadd16 addr 1
    ({ cpu with H := getBits addr1 8 16, L := getBits addr1 0 8 }, addr)
  | .HLD =>
    let addr := cpu.get_hl
    let addr1 := wsub16 addr 1
    ({ cpu with H := getBits addr1 8 16, L := getBits addr1 0 8 }, addr)

namespace ALU

/-- `ALU::add`: result and flags of `A + value`.  The flag order follows
the source (Z, N, C, then H). -/
def add (cpu : CPU) (value : Nat) : CPU × Nat :=
  let new_value := wadd8 cpu.Accumulator value
  let did_overflow := 256 ≤ cpu.Accumulator + value
  let cpu := cpu.set_flag .Z (new_value = 0)
  let cpu := cpu.set_flag .N false
  let cpu := cpu.set_flag .C did_overflow
  let cpu := cpu.set_flag .H (cpu.Accumulator % 16 + value % 16 > 0xF)
  (cpu, new_value)

/-- `ALU::sub`. -/
def sub (cpu : CPU) (value : Nat) : CPU × Nat :=
  let new_value := wsub8 cpu.Accumulator value
  let did_overflow := cpu.Accumulator < value
  let cpu := cpu.set_flag .Z (new_value = 0)
  let cpu := cpu.set_flag .N true
  let cpu := cpu.set_flag .H (cpu.Accumulator % 16 < value % 16)
  let cpu := cpu.set_flag .C did_overflow
  (cpu, new_value)

/-- `ALU::and`. -/
def and (cpu : CPU) (value : Nat) : CPU × Nat :=
  let new_value := cpu.Accumulator &&& value
  let cpu := cpu.set_flag .Z (new_value = 0)
  let cpu := cpu.set_flag .N false
  let cpu := cpu.set_flag .H true
  let cpu := cpu.set_flag .C false
  (cpu, new_value)

/-- `ALU::or`. -/
def or (cpu : CPU) (value : Nat) : CPU × Nat :=
  let new_value := cpu.Accumulator ||| value
  let cpu := cpu.set_flag .Z (new_value = 0)
  let cpu := cpu.set_flag .N false
  let cpu := cpu.set_flag .H false
  let cpu := cpu.set_flag .C false
  (cpu, new_value)

/-- `ALU::xor`. -/
def xor (cpu : CPU) (value : Nat) : CPU × Nat :=
  let new_value := cpu.Accumulator ^^^ value
  let cpu := cpu.set_flag .Z (new_value = 0)
  let cpu := cpu.set_flag .N false
  let cpu := cpu.set_flag .H false
  let cpu := cpu.set_flag .C false
  (cpu, new_value)

/-- `ALU::sr_flag_update`. -/
def sr_flag_update (cpu : CPU) (carry : Bool) (new_value : Nat) : CPU :=
  let cpu := cpu.set_flag .H false
  let cpu := cpu.set_flag .N false
  let cpu := cpu.set_flag .Z (new_value = 0)
  cpu.set_flag .C carry

/-- `ALU::rotate_right` (RR: through the carry flag). -/
def rotate_right (cpu : CPU) (value : Nat) : CPU × Nat :=
  let carry := Nat.testBit value 0
  let new_value := value >>> 1
  let new_value := if cpu.get_flag .C then setBit8 new_value 7 true else new_value
  (sr_flag_update cpu carry new_value, new_value)

/-- `ALU::rotate_right_carry` (RRC). -/
def rotate_right_carry (cpu : CPU) (value : Nat) : CPU × Nat :=
  let carry := Nat.testBit value 0
  let new_value := value >>> 1
  let new_value := if carry then setBit8 new_value 7 true else new_value
  (sr_flag_update cpu carry new_value, new_value)

/-- `ALU::rotate_left` (RL). -/
def rotate_left (cpu : CPU) (value : Nat) : CPU × Nat :=
  let carry := Nat.testBit value 7
  let new_value := (value <<< 1) % 256
  let new_value := if cpu.get_flag .C then setBit8 new_value 0 true else new_value
  (sr_flag_update cpu carry new_value, new_value)

/-- `ALU::rotate_left_carry` (RLC). -/
def rotate_left_carry (cpu : CPU) (value : Nat) : CPU × Nat :=
  let carry := Nat.testBit value 7
  let new_value := (value <<< 1) % 256
  let new_value := if carry then setBit8 new_value 0 true else new_value
  (sr_flag_update cpu carry new_value, new_value)

/-- `ALU::shift_left_arithmetic`. -/
def shift_left_arithmetic (cpu : CPU) (value : Nat) : CPU × Nat :=
  let carry := Nat.testBit value 7
  let new_value := (value <<< 1) % 256
  (sr_flag_update cpu carry new_value, new_value)

/-- `ALU::shift_right_arithmetic`: `(value as i8 >> 1) as u8`. -/
def shift_right_arithmetic (cpu : CPU) (value : Nat) : CPU × Nat :=
  let carry := Nat.testBit value 0
  let new_value := if Nat.testBit value 7 then (value >>> 1) ||| 0x80 else value >>> 1
  (sr_flag_update cpu carry new_value, new_value)

/-- `ALU::swap_nibble`. -/
def swap_nibble (cpu : CPU) (value : Nat) : CPU × Nat :=
  let new_number := (getBits value 0 4) <<< 4 ||| getBits value 4 8
  (sr_flag_update cpu false new_number, new_number)

/-- `ALU::shift_right_logical`. -/
def shift_right_logical (cpu : CPU) (value : Nat) : CPU × Nat :=
  let carry := Nat.testBit value 0
  let new_value := value >>> 1
  (sr_flag_update cpu carry new_value, new_value)

/-- `ALU::increment_16` on a register pair. -/
def increment_16 (upper lower : Nat) : Nat × Nat :=
  let addr := wadd16 (upper <<< 8 ||| lower) 1
  (getBits addr 8 16, getBits addr 0 8)

/-- `ALU::decrement_16` on a register pair. -/
def decrement_16 (upper lower : Nat) : Nat × Nat :=
  let addr := wsub16 (upper <<< 8 ||| lower) 1
  (getBits addr 8 16, getBits addr 0 8)

/-- `ALU::write_16`: split a 16-bit value into (upper, lower) bytes. -/
def write_16 (value : Nat) : Nat × Nat := (getBits value 8 16, getBits value 0 8)

/-- `i8::wrapping_abs` followed by `as u16` (sign extension), as used by
`ALU::add_rel`. -/
def wrapping_abs_as_u16 (rel : Int) : Nat :=
  if rel = -128 then 0xFF80 else rel.natAbs

/-- `ALU::add_rel`. -/
def add_rel (addr : Nat) (rel : Int) : Nat :=
  if rel < 0 then wsub16 addr (wrapping_abs_as_u16 rel)
  else wadd16 addr rel.toNat

/-- `ALU::handle_op`.  Note the source implements ADC as two sequential
`add`s (first the carry, then the operand) and SBC likewise. -/
def handle_op (cpu : CPU) (op : AluOp) (value : Nat) : CPU :=
  match op with
  | .Add =>
    let (cpu, v) := add cpu value
    { cpu with Accumulator := v }
  | .AddWithCarry =>
    let (cpu, v) := add cpu (if cpu.get_flag .C then 1 else 0)
    let cpu := { cpu with Accumulator := v }
    let (cpu, v) := add cpu value
    { cpu with Accumulator := v }
  | .Subtract =>
    let (cpu, v) := sub cpu value
    { cpu with Accumulator := v }
  | .SubtractWithCarry =>
    let (cpu, v) := sub cpu (if cpu.get_flag .C then 1 else 0)
    let cpu := { cpu with Accumulator := v }
    let (cpu, v) := sub cpu value
    { cpu with Accumulator := v }
  | .And =>
    let (cpu, v) := and cpu value
    { cpu with Accumulator := v }
  | .Xor =>
    let (cpu, v) := xor cpu value
    { cpu with Accumulator := v }
  | .Or =>
    let (cpu, v) := or cpu value
    { cpu with Accumulator := v }
  | .Compare => (sub cpu value).1

/-- `ALU::handle_bitwise`. -/
def handle_bitwise (cpu : CPU) (op : BitwiseOp) (register : Register8)
    (bus : MemoryBus) : Option (CPU × MemoryBus) := do
  let value ← cpu.read_register register bus
  let (cpu, result) :=
    match op with
    | .RotateLeftCarry => rotate_left_carry cpu value
    | .RotateRightCarry => rotate_right_carry cpu value
    | .RotateLeft => rotate_left cpu value
    | .RotateRight => rotate_right cpu value
    | .ShiftLeftArithmetic => shift_left_arithmetic cpu value
    | .ShiftRightArithmetic => shift_right_arithmetic cpu value
    | .Swap => swap_nibble cpu value
    | .ShiftRightLogical => shift_right_logical cpu value
  cpu.write_register_immediate register result bus

end ALU

/-- The instruction-execution `match` inside `CPU::tick` (factored out of
the loop body for the embedding).  The returned `Bool` is the local
`action_taken`; in the source only the `JumpConditional` arm sets it.
`none` embeds the panicking paths: the `todo!()` for DAA, the
`panic!("Debug breakpoint!")` for `LD B,B`, a panicking bus access, and
the final `unimplemented!()` arm (reached by `LoadSP`, `AddHLRegister`,
`LoadSPHL`, `LoadHLSP`, `AddSp` and `CallConditional`, which this version
of the interpreter does not handle). -/
def CPU.execInstr (cpu : CPU) (bus : MemoryBus) (instr : Instruction) :
    Option (CPU × MemoryBus × Bool) :=
  match instr with
  | .Nop => some (cpu, bus, false)
  | .Jump target => some ({ cpu with PC := target }, bus, false)
  | .Stop => some ({ cpu with stop := true }, bus, false)
  | .LoadImmediate register immediate =>
    match register with
    | .B => some ({ cpu with B := immediate }, bus, false)
    | .C => some ({ cpu with C := immediate }, bus, false)
    | .D => some ({ cpu with D := immediate }, bus, false)
    | .E => some ({ cpu with E := immediate }, bus, false)
    | .H => some ({ cpu with H := immediate }, bus, false)
    | .L => some ({ cpu with L := immediate }, bus, false)
    | .IndirectHL =>
      (bus.write_u8 cpu.get_hl immediate).map fun b => (cpu, b, false)
    | .A => some ({ cpu with Accumulator := immediate }, bus, false)
  | .LoadIndirectImmediateA addr =>
    (bus.write_u8 addr cpu.Accumulator).map fun b => (cpu, b, false)
  | .LoadAIndirectImmediate addr =>
    (bus.get_u8 addr).map fun v => ({ cpu with Accumulator := v }, bus, false)
  | .LoadHighPageA offset =>
    (bus.write_u8 (0xFF00 + offset) cpu.Accumulator).map fun b => (cpu, b, false)
  | .LoadAHighPage offset =>
    (bus.get_u8 (0xFF00 + offset)).map fun v =>
      ({ cpu with Accumulator := v }, bus, false)
  | .LoadHighPageIndirectA =>
    (bus.write_u8 (0xFF00 + cpu.C) cpu.Accumulator).map fun b => (cpu, b, false)
  | .LoadAHighPageIndirect =>
    (bus.get_u8 (0xFF00 + cpu.C)).map fun v =>
      ({ cpu with Accumulator := v }, bus, false)
  | .AccumulatorFlag af_op =>
    match af_op with
    | .RotateLeftCarryA =>
      let (cpu, v) := ALU.rotate_left_carry cpu cpu.Accumulator
      some ({ cpu with Accumulator := v }, bus, false)
    | .RotateRightCarryA =>
      let (cpu, v) := ALU.rotate_right_carry cpu cpu.Accumulator
      some ({ cpu with Accumulator := v }, bus, false)
    | .RotateLeftA =>
      let (cpu, v) := ALU.rotate_left cpu cpu.Accumulator
      some ({ cpu with Accumulator := v }, bus, false)
    | .RotateRightA =>
      let (cpu, v) := ALU.rotate_right cpu cpu.Accumulator
      some ({ cpu with Accumulator := v }, bus, false)
    | .DecimalAdjustAfterAddition => none
    | .ComplementAccumulator =>
      let cpu := { cpu with Accumulator := cpu.Accumulator ^^^ 0xFF }
      let cpu := cpu.set_flag .N true
      some (cpu.set_flag .H true, bus, false)
    | .SetCarryFlag =>
      let cpu := cpu.set_flag .N false
      let cpu := cpu.set_flag .H false
      some (cpu.set_flag .C true, bus, false)
    | .ComplementCarryFlag =>
      let cpu := cpu.set_flag .N false
      let cpu := cpu.set_flag .H false
      some (cpu.set_flag .C (!cpu.get_flag .C), bus, false)
  | .Alu alu_op register =>
    (cpu.read_register register bus).map fun v =>
      (ALU.handle_op cpu alu_op v, bus, false)
  | .AluImmediate alu_op immediate =>
    some (ALU.handle_op cpu alu_op immediate, bus, false)
  | .JumpConditional condition addr =>
    let jump :=
      match condition with
      | .NZ => !cpu.get_flag .Z
      | .Z => cpu.get_flag .Z
      | .NC => !cpu.get_flag .C
      | .C => cpu.get_flag .C
    if jump then some ({ cpu with PC := addr }, bus, true)
    else some (cpu, bus, false)
  | .LoadImmediate16 register immediate =>
    match register with
    | .BC =>
      some ({ cpu with C := getBits immediate 0 8, B := getBits immediate 8 16 },
        bus, false)
    | .DE =>
      some ({ cpu with E := getBits immediate 0 8, D := getBits immediate 8 16 },
        bus, false)
    | .HL =>
      some ({ cpu with L := getBits immediate 0 8, H := getBits immediate 8 16 },
        bus, false)
    | .SP => some ({ cpu with SP := immediate }, bus, false)
  | .LoadAIndirect reg_with_addr =>
    let (cpu, addr) := cpu.get_indirect reg_with_addr
    (bus.get_u8 addr).map fun v => ({ cpu with Accumulator := v }, bus, false)
  | .LoadIndirectA reg_with_addr =>
    let (cpu, addr) := cpu.get_indirect reg_with_addr
    (bus.write_u8 addr cpu.Accumulator).map fun b => (cpu, b, false)
  | .Increment16 register =>
    match register with
    | .BC =>
      let (u, l) := ALU.increment_16 cpu.B cpu.C
      some ({ cpu with B := u, C := l }, bus, false)
    | .DE =>
      let (u, l) := ALU.increment_16 cpu.D cpu.E
      some ({ cpu with D := u, E := l }, bus, false)
    | .HL =>
      let (u, l) := ALU.increment_16 cpu.H cpu.L
      some ({ cpu with H := u, L := l }, bus, false)
    -- `self.SP += 1` (release-mode wrapping)
    | .SP => some ({ cpu with SP := (cpu.SP + 1) % 65536 }, bus, false)
  | .Decrement16 register =>
    match register with
    | .BC =>
      let (u, l) := ALU.decrement_16 cpu.B cpu.C
      some ({ cpu with B := u, C := l }, bus, false)
    | .DE =>
      let (u, l) := ALU.decrement_16 cpu.D cpu.E
      some ({ cpu with D := u, E := l }, bus, false)
    | .HL =>
      let (u, l) := ALU.decrement_16 cpu.H cpu.L
      some ({ cpu with H := u, L := l }, bus, false)
    -- the source's SP arm also executes `self.SP += 1`
    | .SP => some ({ cpu with SP := (cpu.SP + 1) % 65536 }, bus, false)
  | .Load reg1 reg2 =>
    if reg1 = .B ∧ reg2 = .B then none
    else (cpu.write_register reg1 reg2 bus).map fun (c, b) => (c, b, false)
  | .Increment reg =>
    match reg with
    | .B => some ({ cpu with B := wadd8 cpu.B 1 }, bus, false)
    | .C => some ({ cpu with C := wadd8 cpu.C 1 }, bus, false)
    | .D => some ({ cpu with D := wadd8 cpu.D 1 }, bus, false)
    | .E => some ({ cpu with E := wadd8 cpu.E 1 }, bus, false)
    | .H => some ({ cpu with H := wadd8 cpu.H 1 }, bus, false)
    | .L => some ({ cpu with L := wadd8 cpu.L 1 }, bus, false)
    | .IndirectHL => do
      let v ← bus.get_u8 cpu.get_hl
      let b ← bus.write_u8 cpu.get_hl (wadd8 v 1)
      some (cpu, b, false)
    | .A => some ({ cpu with Accumulator := wadd8 cpu.Accumulator 1 }, bus, false)
  | .Decrement reg =>
    match reg with
    | .B => some ({ cpu with B := wsub8 cpu.B 1 }, bus, false)
    | .C => some ({ cpu with C := wsub8 cpu.C 1 }, bus, false)
    | .D => some ({ cpu with D := wsub8 cpu.D 1 }, bus, false)
    | .E => some ({ cpu with E := wsub8 cpu.E 1 }, bus, false)
    | .H => some ({ cpu with H := wsub8 cpu.H 1 }, bus, false)
    | .L => some ({ cpu with L := wsub8 cpu.L 1 }, bus, false)
    | .IndirectHL => do
      let v ← bus.get_u8 cpu.get_hl
      let b ← bus.write_u8 cpu.get_hl (wsub8 v 1)
      some (cpu, b, false)
    | .A => some ({ cpu with Accumulator := wsub8 cpu.Accumulator 1 }, bus, false)
  | .Push register =>
    let value :=
      match register with
      | .BC => cpu.get_bc
      | .DE => cpu.get_de
      | .HL => cpu.get_hl
      | .AF => cpu.get_af
    (bus.write_stack_16 cpu.SP value).map fun (b, sp) =>
      ({ cpu with SP := sp }, b, false)
  | .Pop register =>
    (bus.get_stack_16 cpu.SP).map fun (v, sp) =>
      match register with
      | .BC =>
        ({ cpu with B := (ALU.write_16 v).1, C := (ALU.write_16 v).2, SP := sp },
          bus, false)
      | .DE =>
        ({ cpu with D := (ALU.write_16 v).1, E := (ALU.write_16 v).2, SP := sp },
          bus, false)
      | .HL =>
        ({ cpu with H := (ALU.write_16 v).1, L := (ALU.write_16 v).2, SP := sp },
          bus, false)
      | .AF =>
        ({ cpu with
          Accumulator := (ALU.write_16 v).1,
          Flags := (ALU.write_16 v).2, SP := sp }, bus, false)
  | .JumpHL => some ({ cpu with PC := cpu.get_hl }, bus, false)
  | .DisableInterrupts => some ({ cpu with IME := false }, bus, false)
  | .EnableInterrupts => some ({ cpu with IME := true }, bus, false)
  | .RetInterrupt =>
    (bus.get_stack_16 cpu.SP).map fun (addr, sp) =>
      ({ cpu with PC := addr, SP := sp, IME := true }, bus, false)
  | .Call imm =>
    (bus.write_stack_16 cpu.SP cpu.PC).map fun (b, sp) =>
      ({ cpu with SP := sp, PC := imm }, b, false)
  | .Ret =>
    (bus.get_stack_16 cpu.SP).map fun (addr, sp) =>
      ({ cpu with PC := addr, SP := sp }, bus, false)
  | .RetConditional condition =>
    let cond :=
      match condition with
      | .NZ => !cpu.get_flag .Z
      | .Z => cpu.get_flag .Z
      | .NC => !cpu.get_flag .C
      | .C => cpu.get_flag .C
    if cond then
      (bus.get_stack_16 cpu.SP).map fun (addr, sp) =>
        ({ cpu with PC := addr, SP := sp }, bus, false)
    else some (cpu, bus, false)
  | .JumpRelative rel => some ({ cpu with PC := ALU.add_rel cpu.PC rel }, bus, false)
  | .JumpRelativeConditional condition rel =>
    let cond :=
      match condition with
      | .NZ => !cpu.get_flag .Z
      | .Z => cpu.get_flag .Z
      | .NC => !cpu.get_flag .C
      | .C => cpu.get_flag .C
    if cond then some ({ cpu with PC := ALU.add_rel cpu.PC rel }, bus, false)
    else some (cpu, bus, false)
  -- note: the source sets Z to the value of the tested bit (no complement)
  | .Bit bit reg => do
    let b ←
      match reg with
      | Register8.B => some (Nat.testBit cpu.B bit)
      | Register8.C => some (Nat.testBit cpu.C bit)
      | Register8.D => some (Nat.testBit cpu.D bit)
      | Register8.E => some (Nat.testBit cpu.E bit)
      | Register8.H => some (Nat.testBit cpu.H bit)
      | Register8.L => some (Nat.testBit cpu.L bit)
      | Register8.IndirectHL =>
        (bus.get_u8 cpu.get_hl).map fun v => Nat.testBit v bit
      | Register8.A => some (Nat.testBit cpu.Accumulator bit)
    let cpu := cpu.set_flag .Z b
    let cpu := cpu.set_flag .N false
    some (cpu.set_flag .H true, bus, false)
  | .SetBit bit reg =>
    match reg with
    | .B => some ({ cpu with B := setBit8 cpu.B bit true }, bus, false)
    | .C => some ({ cpu with C := setBit8 cpu.C bit true }, bus, false)
    | .D => some ({ cpu with D := setBit8 cpu.D bit true }, bus, false)
    | .E => some ({ cpu with E := setBit8 cpu.E bit true }, bus, false)
    | .H => some ({ cpu with H := setBit8 cpu.H bit true }, bus, false)
    | .L => some ({ cpu with L := setBit8 cpu.L bit true }, bus, false)
    -- the source sets the bit on a temporary copy of the byte and never
    -- writes it back
    | .IndirectHL => (bus.get_u8 cpu.get_hl).map fun _ => (cpu, bus, false)
    | .A => some ({ cpu with Accumulator := setBit8 cpu.Accumulator bit true },
        bus, false)
  | .ResetBit bit reg =>
    match reg with
    | .B => some ({ cpu with B := setBit8 cpu.B bit false }, bus, false)
    | .C => some ({ cpu with C := setBit8 cpu.C bit false }, bus, false)
    | .D => some ({ cpu with D := setBit8 cpu.D bit false }, bus, false)
    | .E => some ({ cpu with E := setBit8 cpu.E bit false }, bus, false)
    | .H => some ({ cpu with H := setBit8 cpu.H bit false }, bus, false)
    | .L => some ({ cpu with L := setBit8 cpu.L bit false }, bus, false)
    | .IndirectHL => (bus.get_u8 cpu.get_hl).map fun _ => (cpu, bus, false)
    | .A => some ({ cpu with Accumulator := setBit8 cpu.Accumulator bit false },
        bus, false)
  | .Bitwise op register =>
    (ALU.handle_bitwise cpu op register bus).map fun (c, b) => (c, b, false)
  | .Halt => some ({ cpu with halted := true }, bus, false)
  | .Reset offset =>
    (bus.write_stack_16 cpu.SP cpu.PC).map fun (b, sp) =>
      ({ cpu with SP := sp, PC := offset }, b, false)
  | _ => none

/-- `CPU::tick`: fetch (always, advancing PC), then interrupt handling,
then the halted check, then execution; returns the consumed M-cycles. -/
def CPU.tick (cpu : CPU) (bus : MemoryBus) : Option (CPU × MemoryBus × Nat) := do
  let (cpu, instr) ← cpu.next_instruction bus
  let (cpu, bus, n) ← cpu.handle_interrupt bus
  if n ≠ 0 then some (cpu, bus, n)
  else if cpu.halted then some (cpu, bus, 1)
  else do
    let (cpu, bus, action_taken) ← cpu.execInstr bus instr
    some (cpu, bus, instr.ticks action_taken)

/-! ## Split-out ALU module (`src/emulator/cpu/alu.rs`)

The later revision of the CPU splits the ALU into its own module; the
claims about `INC`/`DEC` flags and `ADD HL,rr` cite this file, so its
`increment`, `decrement` and `add_16` are embedded here separately. -/

namespace CpuAlu

/-- `ALU::increment` from `src/emulator/cpu/alu.rs`: note the half-carry
is computed from `cpu.Accumulator` and the old value. -/
def increment (cpu : CPU) (value : Nat) : CPU × Nat :=
  let new_value := wadd8 value 1
  let cpu := cpu.set_flag .Z (new_value = 0)
  let cpu := cpu.set_flag .N false
  let cpu := cpu.set_flag .H (cpu.Accumulator % 16 + value % 16 > 0xF)
  (cpu, new_value)

/-- `ALU::decrement` from `src/emulator/cpu/alu.rs`: note it sets `N` to
`false` and computes the half-carry exactly as `increment` does. -/
def decrement (cpu : CPU) (value : Nat) : CPU × Nat :=
  let new_value := wsub8 value 1
  let cpu := cpu.set_flag .Z (new_value = 0)
  let cpu := cpu.set_flag .N false
  let cpu := cpu.set_flag .H (cpu.Accumulator % 16 + value % 16 > 0xF)
  (cpu, new_value)

/-- `ALU::add_16` from `src/emulator/cpu/alu.rs`: `HL + value` with
`H = (HL & 0x07FF) + (value & 0x07FF) > 0x07FF`. -/
def add_16 (cpu : CPU) (value : Nat) : CPU × Nat :=
  let hl := cpu.get_hl
  let new_value := wadd16 hl value
  let did_overflow := 65536 ≤ hl + value
  let cpu := cpu.set_flag .C did_overflow
  let cpu := cpu.set_flag .N false
  let cpu := cpu.set_flag .H (hl % 0x800 + value % 0x800 > 0x7FF)
  (cpu, new_value)

end CpuAlu

/-! ## PPU (`src/emulator/ppu.rs`) -/

def GAMEBOY_WIDTH : Nat := 160

def GAMEBOY_HEIGHT : Nat := 144

/-- The frame buffer `[u8; GAMEBOY_HEIGHT * GAMEBOY_WIDTH]`, embedded as a
total map from index to byte. -/
def FrameBuffer := Nat → Nat

structure PPU where
  updated : Bool
  mode_clock : Nat
  mode : Nat
  hblanking : Bool
  deriving Repr, DecidableEq

/-- `#[derive(Default)]`. -/
def PPU.default : PPU :=
  { updated := false, mode_clock := 0, mode := 0, hblanking := false }

/-- `PPU::set_color`: store at `fb[LY * 160 + x]`. -/
def PPU.set_color (bus : MemoryBus) (fb : FrameBuffer) (x color : Nat) :
    Option FrameBuffer :=
  (bus.get_u8 LCD_Y).map fun lcd_y =>
    fun i => if i = lcd_y * GAMEBOY_WIDTH + x then color else fb i

/-- One iteration of the `for x in 0..GAMEBOY_WIDTH` loop in
`PPU::draw_bg`.  `bg_tile_y` and `bg_y` are the loop-invariant values the
source computes before the loop.  The signed tile addressing
`(tile_number as i8 as i16 + 128) as u16` is written out as the
equivalent branch on `tile_number < 128`. -/
def PPU.draw_bg_pixel (bus : MemoryBus) (lcd_control bg_tile_y bg_y : Nat)
    (fb : FrameBuffer) (x : Nat) : Option FrameBuffer := do
  let scroll_x ← bus.get_u8 SCROLL_X
  let bg_x := scroll_x + x
  let tile_map_base : Nat := if Nat.testBit lcd_control 3 then 0x9C00 else 0x9800
  let tile_y := bg_tile_y
  let tile_x := (bg_x >>> 3) &&& 31
  let pixel_y := bg_y &&& 0x07
  let pixel_x := bg_x &&& 0x07
  let tile_number ← bus.get_u8 (tile_map_base + tile_y * 32 + tile_x)
  let base_address : Nat := if Nat.testBit lcd_control 4 then 0x8000 else 0x8800
  let address_offset :=
    if base_address = 0x8000 then tile_number * 16
    else (if tile_number < 128 then tile_number + 128 else tile_number - 128) * 16
  let tile_address := (base_address + address_offset) % 65536
  let tile_pixel := tile_address + pixel_y * 2
  let lsb_byte ← bus.get_u8 tile_pixel
  let msb_byte ← bus.get_u8 (tile_pixel + 1)
  let color_id :=
    (if Nat.testBit msb_byte (7 - pixel_x) then 1 else 0) <<< 1 |||
      (if Nat.testBit lsb_byte (7 - pixel_x) then 1 else 0)
  let pallete ← bus.get_u8 PALLETE
  let remap ←
    if color_id = 0 then some (getBits pallete 0 2)
    else if color_id = 1 then some (getBits pallete 2 4)
    else if color_id = 2 then some (getBits pallete 4 6)
    else if color_id = 3 then some (getBits pallete 6 8)
    else none
  let color ←
    if remap = 0 then some 255
    else if remap = 1 then some 192
    else if remap = 2 then some 95
    else if remap = 3 then some 0
    else none
  PPU.set_color bus fb x color

/-- `PPU::draw_bg`. -/
def PPU.draw_bg (bus : MemoryBus) (fb : FrameBuffer) : Option FrameBuffer := do
  let lcd_control ← bus.get_u8 LCDC
  if ¬Nat.testBit lcd_control 0 then some fb
  else do
    let lcd_y ← bus.get_u8 LCD_Y
    let scroll_y ← bus.get_u8 SCROLL_Y
    let bg_y := wadd8 scroll_y lcd_y
    let bg_tile_y := (bg_y >>> 3) &&& 31
    (List.range GAMEBOY_WIDTH).foldlM
      (fun fb x => PPU.draw_bg_pixel bus lcd_control bg_tile_y bg_y fb x) fb

/-- `PPU::render_scanline`: fill the row with 255, then draw the
background. -/
def PPU.render_scanline (bus : MemoryBus) (fb : FrameBuffer) :
    Option FrameBuffer := do
  let fb ← (List.range GAMEBOY_WIDTH).foldlM
    (fun fb x => PPU.set_color bus fb x 255) fb
  PPU.draw_bg bus fb

/-- `PPU::change_mode`: entering mode 0 renders a scan-line and sets
`hblanking`; entering mode 1 requests VBlank and sets `updated`. -/
def PPU.change_mode (p : PPU) (mode : Nat) (bus : MemoryBus)
    (fb : FrameBuffer) : Option (PPU × MemoryBus × FrameBuffer) :=
  let p := { p with mode := mode }
  if mode = 0 then
    (PPU.render_scanline bus fb).map fun fb =>
      ({ p with hblanking := true }, bus, fb)
  else if mode = 1 then
    some ({ p with updated := true }, bus.request_interrupt .VBlank, fb)
  else some (p, bus, fb)

/-- `PPU::change_mode_if_necessary`. -/
def PPU.change_mode_if_necessary (p : PPU) (mode : Nat) (bus : MemoryBus)
    (fb : FrameBuffer) : Option (PPU × MemoryBus × FrameBuffer) :=
  if p.mode ≠ mode then p.change_mode mode bus fb else some (p, bus, fb)

/-- The `while ticks_left > 0` loop of `PPU::tick`.  `lcd_y` is the local
copy the source reads once at entry and keeps in sync with the bus at
every wrap.  The `(lcd_y + 1) % 154` is a `u8` addition, hence the
`% 256` (release-mode wrap). -/
def PPU.tickLoop (p : PPU) (bus : MemoryBus) (fb : FrameBuffer)
    (lcd_y : Nat) (ticks_left : Nat) : Option (PPU × MemoryBus × FrameBuffer) :=
  if _h : ticks_left = 0 then some (p, bus, fb)
  else do
    let cur_ticks := min ticks_left 80
    let p := { p with mode_clock := p.mode_clock + cur_ticks }
    let (p, bus, fb, lcd_y) ←
      if 456 ≤ p.mode_clock then do
        let p := { p with mode_clock := p.mode_clock - 456 }
        let lcd_y := (lcd_y + 1) % 256 % 154
        let bus ← bus.write_u8 LCD_Y lcd_y
        if 144 ≤ lcd_y then
          (p.change_mode_if_necessary 1 bus fb).map fun (p, bus, fb) =>
            (p, bus, fb, lcd_y)
        else some (p, bus, fb, lcd_y)
      else some (p, bus, fb, lcd_y)
    let (p, bus, fb) ←
      if lcd_y < 144 then
        if p.mode_clock ≤ 80 then p.change_mode_if_necessary 2 bus fb
        else if p.mode_clock ≤ 252 then p.change_mode_if_necessary 3 bus fb
        else p.change_mode_if_necessary 0 bus fb
      else some (p, bus, fb)
    PPU.tickLoop p bus fb lcd_y (ticks_left - cur_ticks)
termination_by ticks_left
decreasing_by omega

/-- `PPU::tick` (T-cycles): returns immediately when LCDC bit 7 is clear,
otherwise clears `hblanking`, reads LY and runs the chunked loop. -/
def PPU.tick (p : PPU) (bus : MemoryBus) (fb : FrameBuffer) (ticks : Nat) :
    Option (PPU × MemoryBus × FrameBuffer) := do
  let lcd_control ← bus.get_u8 LCDC
  if ¬Nat.testBit lcd_control 7 then some (p, bus, fb)
  else do
    let p := { p with hblanking := false }
    let lcd_y ← bus.get_u8 LCD_Y
    PPU.tickLoop p bus fb lcd_y ticks

/-- A sequence of `PPU::tick` calls with the given T-cycle credits, as
issued by the emulator driver loop. -/
def PPU.run (s : PPU × MemoryBus × FrameBuffer) (credits : List Nat) :
    Option (PPU × MemoryBus × FrameBuffer) :=
  credits.foldlM (fun s t => PPU.tick s.1 s.2.1 s.2.2 t) s

/-! ## Auxiliary definitions for the verification -/

/-- Iterated `CPU::tick`, as the emulator driver loop performs it. -/
def runTicks : Nat → CPU → MemoryBus → Option (CPU × MemoryBus)
  | 0, c, b => some (c, b)
  | n + 1, c, b => do
    let (c, b, _) ← c.tick b
    runTicks n c b

/-- Addresses inside the always-writable, readback-faithful RAM regions
of the bus: the two WRAM banks and HRAM. -/
def writableRam (a : Nat) : Prop :=
  (0xC000 ≤ a ∧ a ≤ 0xCFFF) ∨ (0xD000 ≤ a ∧ a ≤ 0xDFFF) ∨
    (0xFF80 ≤ a ∧ a ≤ 0xFFFE)

instance (a : Nat) : Decidable (writableRam a) := by
  unfold writableRam; infer_instance

/-- ROM for the RST counterexample: NOP padding up to 0x100, then
opcode `0xCF` (`RST 08`). -/
def rstRom : List Nat := List.replicate 0x100 0 ++ [0xCF, 0, 0, 0]

def rstCPU : CPU := { CPU.default with SP := 0xFFFE }

/-- ROM for the POP-AF counterexample, starting at 0x0100:
`LD A,0xFF; LDH (0x80),A; LDH (0x81),A; LD SP,0xFF80; POP AF`. -/
def popAfRom : List Nat := List.replicate 0x100 0 ++
  [0x3E, 0xFF, 0xE0, 0x80, 0xE0, 0x81, 0x31, 0x80, 0xFF, 0xF1, 0, 0, 0, 0]

/-- Bus for the interrupt-dispatch counterexample: NOP ROM with the
VBlank interrupt requested and enabled. -/
def dispatchBus : MemoryBus :=
  { MemoryBus.new (List.replicate 0x104 0) with
    interrupts := { Interrupts.default with
      vblank_enabled := true, vblank_requested := true } }

def dispatchCPU : CPU := { CPU.default with SP := 0xFFFE, IME := true }

/-- A fresh bus with a small all-zero ROM. -/
def echoBus : MemoryBus := MemoryBus.new (List.replicate 8 0)

/-- CPU with `HL = 0x0800`, for the `ADD HL,rr` half-carry counterexample. -/
def addHlCPU : CPU := { CPU.default with H := 0x08 }

/-- A halted CPU over a NOP ROM with no interrupts pending. -/
def haltedCPU : CPU := { CPU.default with SP := 0xFFFE, halted := true }

def haltedBus : MemoryBus := MemoryBus.new (List.replicate 0x104 0)

/-- The bus shape preserved by a PPU run that started from `b0`: only the
LY register and the interrupt lines change. -/
def mkBus (b0 : MemoryBus) (y : Nat) (intr : Interrupts) : MemoryBus :=
  { b0 with lcd := { b0.lcd with lcd_y := y }, interrupts := intr }

/-- LY after `t` T-cycles from reset. -/
def lyAt (t : Nat) : Nat := (t / 456) % 154

/-- `mode_clock` after `t` T-cycles from reset. -/
def clockAt (t : Nat) : Nat := t % 456

/-- PPU mode after `t > 0` T-cycles from reset. -/
def modeAt (t : Nat) : Nat :=
  if 144 ≤ lyAt t then 1
  else if clockAt t ≤ 80 then 2
  else if clockAt t ≤ 252 then 3
  else 0

/-- Invariant tying a PPU/bus/frame-buffer state to the total number of
T-cycles credited since reset over a bus that started as `b0`. -/
def PPUInv (b0 : MemoryBus) (t : Nat) (s : PPU × MemoryBus × FrameBuffer) :
    Prop :=
  s.1.mode_clock = clockAt t ∧
  (∃ intr, s.2.1 = mkBus b0 (lyAt t) intr) ∧
  (s.1.updated = true ↔ 65664 ≤ t) ∧
  s.1.mode = (if t = 0 then 0 else modeAt t)

/-! ## General lemmas -/

theorem shl8_or_eq (a b : Nat) (hb : b < 256) : a <<< 8 ||| b = a * 256 + b := by
  have h1 : a <<< 8 = 2 ^ 8 * a := by rw [Nat.shiftLeft_eq, Nat.mul_comm]
  rw [h1, ← Nat.mul_add_lt_is_or (by omega : b < 2 ^ 8) a]
  omega

theorem word_reassemble (w : Nat) (h : w < 65536) :
    getBits w 8 16 <<< 8 ||| getBits w 0 8 = w := by
  have h1 : getBits w 8 16 = w >>> 8 := Nat.mod_eq_of_lt (by
    rw [Nat.shiftRight_eq_div_pow]; omega)
  have h2 : getBits w 0 8 = w % 256 := rfl
  rw [h1, h2, shl8_or_eq _ _ (by omega), Nat.shiftRight_eq_div_pow]
  omega

/-! ## Bus region lemmas -/

theorem get_u8_wram1 (bus : MemoryBus) (a : Nat) (h1 : 0xC000 ≤ a)
    (h2 : a ≤ 0xCFFF) : bus.get_u8 a = some (bus.wram1 (a - 0xC000)) := by
  unfold MemoryBus.get_u8
  rw [if_neg (by omega), if_neg (by omega), if_pos (by omega)]

theorem get_u8_wram2 (bus : MemoryBus) (a : Nat) (h1 : 0xD000 ≤ a)
    (h2 : a ≤ 0xDFFF) : bus.get_u8 a = some (bus.wram2 (a - 0xD000)) := by
  unfold MemoryBus.get_u8
  rw [if_neg (by omega), if_neg (by omega), if_neg (by omega),
    if_pos (by omega)]

theorem get_u8_hram (bus : MemoryBus) (a : Nat) (h1 : 0xFF80 ≤ a)
    (h2 : a ≤ 0xFFFE) : bus.get_u8 a = some (bus.hram (a - 0xFF80)) := by
  unfold MemoryBus.get_u8
  simp only [IF, IE]
  rw [if_neg (by omega), if_neg (by intro hc; omega), if_neg (by omega),
    if_neg (by intro hc; omega), if_neg (by omega), if_neg (by intro hc; omega),
    if_neg (by omega), if_neg (by intro hc; omega), if_neg (by omega),
    if_pos (by omega)]

theorem write_u8_wram1 (bus : MemoryBus) (a v : Nat) (h1 : 0xC000 ≤ a)
    (h2 : a ≤ 0xCFFF) :
    bus.write_u8 a v =
      some { bus with wram1 := fun i => if i = a - 0xC000 then v else bus.wram1 i } := by
  unfold MemoryBus.write_u8
  rw [if_neg (by omega), if_neg (by omega), if_pos (by omega)]

theorem write_u8_wram2 (bus : MemoryBus) (a v : Nat) (h1 : 0xD000 ≤ a)
    (h2 : a ≤ 0xDFFF) :
    bus.write_u8 a v =
      some { bus with wram2 := fun i => if i = a - 0xD000 then v else bus.wram2 i } := by
  unfold MemoryBus.write_u8
  rw [if_neg (by omega), if_neg (by omega), if_neg (by omega),
    if_pos (by omega)]

theorem write_u8_hram (bus : MemoryBus) (a v : Nat) (h1 : 0xFF80 ≤ a)
    (h2 : a ≤ 0xFFFE) :
    bus.write_u8 a v =
      some { bus with hram := fun i => if i = a - 0xFF80 then v else bus.hram i } := by
  unfold MemoryBus.write_u8
  rw [if_neg (by omega), if_neg (by intro hw; omega), if_neg (by omega),
    if_neg (by intro hw; omega), if_neg (by omega), if_neg (by intro hw; omega),
    if_neg (by omega), if_neg (by intro hw; omega), if_neg (by omega),
    if_neg (by intro hw; omega), if_pos (by omega)]

/-- Writing to a writable RAM address succeeds, and afterwards a read of
any writable RAM address sees the new byte at the written address and the
old bus contents elsewhere. -/
theorem write_u8_writable (bus : MemoryBus) (a v : Nat) (h : writableRam a) :
    ∃ bus', bus.write_u8 a v = some bus' ∧
      ∀ a', writableRam a' →
        bus'.get_u8 a' = if a' = a then some v else bus.get_u8 a' := by
  rcases h with ⟨h1, h2⟩ | ⟨h1, h2⟩ | ⟨h1, h2⟩
  · refine ⟨_, write_u8_wram1 bus a v h1 h2, ?_⟩
    intro a' ha'
    rcases ha' with ⟨g1, g2⟩ | ⟨g1, g2⟩ | ⟨g1, g2⟩
    · by_cases hne : a' = a
      · subst hne
        rw [if_pos rfl, get_u8_wram1 _ _ g1 g2]
        simp
      · rw [if_neg hne, get_u8_wram1 _ _ g1 g2, get_u8_wram1 _ _ g1 g2]
        have hix : a' - 0xC000 ≠ a - 0xC000 := by omega
        simp [hix]
    · rw [if_neg (by omega), get_u8_wram2 _ _ g1 g2, get_u8_wram2 _ _ g1 g2]
    · rw [if_neg (by omega), get_u8_hram _ _ g1 g2, get_u8_hram _ _ g1 g2]
  · refine ⟨_, write_u8_wram2 bus a v h1 h2, ?_⟩
    intro a' ha'
    rcases ha' with ⟨g1, g2⟩ | ⟨g1, g2⟩ | ⟨g1, g2⟩
    · rw [if_neg (by omega), get_u8_wram1 _ _ g1 g2, get_u8_wram1 _ _ g1 g2]
    · by_cases hne : a' = a
      · subst hne
        rw [if_pos rfl, get_u8_wram2 _ _ g1 g2]
        simp
      · rw [if_neg hne, get_u8_wram2 _ _ g1 g2, get_u8_wram2 _ _ g1 g2]
        have hix : a' - 0xD000 ≠ a - 0xD000 := by omega
        simp [hix]
    · rw [if_neg (by omega), get_u8_hram _ _ g1 g2, get_u8_hram _ _ g1 g2]
  · refine ⟨_, write_u8_hram bus a v h1 h2, ?_⟩
    intro a' ha'
    rcases ha' with ⟨g1, g2⟩ | ⟨g1, g2⟩ | ⟨g1, g2⟩
    · rw [if_neg (by omega), get_u8_wram1 _ _ g1 g2, get_u8_wram1 _ _ g1 g2]
    · rw [if_neg (by omega), get_u8_wram2 _ _ g1 g2, get_u8_wram2 _ _ g1 g2]
    · by_cases hne : a' = a
      · subst hne
        rw [if_pos rfl, get_u8_hram _ _ g1 g2]
        simp
      · rw [if_neg hne, get_u8_hram _ _ g1 g2, get_u8_hram _ _ g1 g2]
        have hix : a' - 0xFF80 ≠ a - 0xFF80 := by omega
        simp [hix]

/-- `write_stack_16` into writable RAM: succeeds, decrements SP by two
(with wrap), and both stack bytes can be read back. -/
theorem write_stack_16_writable (bus : MemoryBus) (sp w : Nat)
    (h1 : writableRam ((sp + 65535) % 65536))
    (h2 : writableRam ((sp + 65534) % 65536)) :
    ∃ bus', bus.write_stack_16 sp w = some (bus', (sp + 65534) % 65536) ∧
      bus'.get_u8 ((sp + 65535) % 65536) = some (getBits w 0 8) ∧
      bus'.get_u8 ((sp + 65534) % 65536) = some (getBits w 8 16) := by
  have e1 : wsub16 sp 1 = (sp + 65535) % 65536 := by unfold wsub16; omega
  have e2 : wsub16 ((sp + 65535) % 65536) 1 = (sp + 65534) % 65536 := by
    unfold wsub16; omega
  have hne : (sp + 65535) % 65536 ≠ (sp + 65534) % 65536 := by omega
  obtain ⟨bus1, hw1, hr1⟩ := write_u8_writable bus ((sp + 65535) % 65536)
    (getBits w 0 8) h1
  obtain ⟨bus2, hw2, hr2⟩ := write_u8_writable bus1 ((sp + 65534) % 65536)
    (getBits w 8 16) h2
  refine ⟨bus2, ?_, ?_, ?_⟩
  · unfold MemoryBus.write_stack_16 MemoryBus.write_stack
    simp [e1, hw1, e2, hw2]
  · rw [hr2 _ h1, if_neg hne, hr1 _ h1, if_pos rfl]
  · rw [hr2 _ h2, if_pos rfl]

/-- `get_stack_16` reads the two stack bytes and restores SP. -/
theorem get_stack_16_read (bus : MemoryBus) (sp hi lo : Nat)
    (hsp : sp < 65536)
    (hu : bus.get_u8 ((sp + 65534) % 65536) = some hi)
    (hl : bus.get_u8 ((sp + 65535) % 65536) = some lo) :
    bus.get_stack_16 ((sp + 65534) % 65536) = some (hi <<< 8 ||| lo, sp) := by
  have e1 : wadd16 ((sp + 65534) % 65536) 1 = (sp + 65535) % 65536 := by
    unfold wadd16; omega
  have e2 : wadd16 ((sp + 65535) % 65536) 1 = sp := by
    unfold wadd16; omega
  unfold MemoryBus.get_stack_16 MemoryBus.get_stack
  rw [hu]
  simp [e1, hl, e2]

/-- C2: for every 16-bit word and every SP whose two stack slots lie in
writable RAM (WRAM or HRAM), `write_stack_16` followed by `get_stack_16`
yields the word again and restores SP.  (The source pushes the low byte
at `sp-1` and the high byte at `sp-2` — the reverse of the hardware
order — but the round-trip law still holds.) -/
theorem write_stack_get_stack_roundtrip (bus : MemoryBus) (sp w : Nat)
    (hsp : sp < 65536) (hw : w < 65536)
    (h1 : writableRam ((sp + 65535) % 65536))
    (h2 : writableRam ((sp + 65534) % 65536)) :
    ∃ bus', bus.write_stack_16 sp w = some (bus', (sp + 65534) % 65536) ∧
      bus'.get_stack_16 ((sp + 65534) % 65536) = some (w, sp) := by
  obtain ⟨bus', hws, hr1, hr2⟩ := write_stack_16_writable bus sp w h1 h2
  refine ⟨bus', hws, ?_⟩
  rw [get_stack_16_read bus' sp _ _ hsp hr2 hr1, word_reassemble w hw]

/-- C2 witness: SP = 0xFFFE, w = 0xBEEF on a fresh bus. -/
theorem write_stack_get_stack_roundtrip_witness :
    ∃ bus', (MemoryBus.new []).write_stack_16 0xFFFE 0xBEEF =
        some (bus', (0xFFFE + 65534) % 65536) ∧
      bus'.get_stack_16 ((0xFFFE + 65534) % 65536) = some (0xBEEF, 0xFFFE) :=
  write_stack_get_stack_roundtrip (MemoryBus.new []) 0xFFFE 0xBEEF
    (by decide) (by decide) (by decide) (by decide)

/-! ## Decoder claims -/

/-- C5 counterexample: on the illegal opcode byte `0xD3` the decoder does
not return a dedicated `IllegalOpcode` error value — it panics
(`unimplemented!()`, embedded as `none`); indeed the repository's `Error`
type has only the constructors `EOF` and `MissingArgument`. -/
theorem illegal_opcode_decode_returns_none :
    Instruction.parse [0xD3, 0, 0, 0] = none := by decide

/-- C5 (amended): for every 4-byte input whose first byte is one of the
eleven illegal opcodes, the decoder fails by panicking (`none`) rather
than substituting another instruction; no error value is produced. -/
theorem illegal_opcodes_decode_to_none (b r1 r2 r3 : Nat)
    (h : b ∈ [0xD3, 0xDB, 0xDD, 0xE3, 0xE4, 0xEB, 0xEC, 0xED, 0xF4, 0xFC, 0xFD]) :
    Instruction.parse [b, r1, r2, r3] = none := by
  fin_cases h <;> rfl

/-- C5 witness: the amended theorem applied at `0xD3`. -/
theorem illegal_opcodes_decode_to_none_witness :
    Instruction.parse [0xD3, 7, 8, 9] = none :=
  illegal_opcodes_decode_to_none 0xD3 7 8 9 (by decide)

/-! ## Code-bug claims -/

/-- C4: decoding `0xCF` (`RST 08`) yields `Reset 1` (the raw 3-bit index,
as the unit tests pin), but executing it sets `PC` to `1` instead of the
vector `1 <<< 3 = 0x08` the claim (and the variant's own doc comment
"Call to 00EXP000") requires.  The push itself uses the post-increment
PC `0x0101`, as the claim states. -/
theorem rst_sets_pc_to_raw_vector_index :
    Instruction.parse [0xCF, 0, 0, 0] = some ([0, 0, 0], .Reset 1) ∧
    (CPU.tick rstCPU (MemoryBus.new rstRom)).map (fun r => r.1.PC) =
      some 0x0001 ∧
    (CPU.tick rstCPU (MemoryBus.new rstRom)).bind
      (fun r => (r.2.1.get_stack_16 r.1.SP).map (·.1)) = some 0x0101 := by
  refine ⟨by decide, by decide, by decide⟩

/-- C6: `ALU::increment`/`ALU::decrement` from `cpu/alu.rs` compute the
half-carry from the accumulator instead of the target operand, and
`decrement` sets `N = false`.  With `A = 0`: `DEC` of `0x10` gives
`N = false` and `H = false` (the claim requires `N = 1` and
`H = ((0x10 & 0xF) == 0) = 1`), and `INC` of `0x0F` gives `H = false`
(the claim requires `H = ((0x0F & 0xF) + 1 > 0xF) = 1`). -/
theorem inc_dec_half_carry_from_accumulator :
    ((CpuAlu.decrement CPU.default 0x10).2 = 0x0F ∧
      (CpuAlu.decrement CPU.default 0x10).1.get_flag .N = false ∧
      (CpuAlu.decrement CPU.default 0x10).1.get_flag .H = false) ∧
    ((CpuAlu.increment CPU.default 0x0F).2 = 0x10 ∧
      (CpuAlu.increment CPU.default 0x0F).1.get_flag .H = false) := by
  decide

/-- C7: `ALU::add_16` masks with `0x07FF` instead of `0x0FFF`, so for
`HL = rr = 0x0800` (a carry out of bit 11) it leaves `H = false` where
the claim requires `H = true`; `N` and `C` agree with the claim. -/
theorem add_16_half_carry_uses_low_11_bits :
    (CpuAlu.add_16 addHlCPU 0x0800).2 = 0x1000 ∧
    (CpuAlu.add_16 addHlCPU 0x0800).1.get_flag .H = false ∧
    (CpuAlu.add_16 addHlCPU 0x0800).1.get_flag .N = false ∧
    (CpuAlu.add_16 addHlCPU 0x0800).1.get_flag .C = false := by
  decide

/-- C8: the bus has no Echo-RAM arm at all: a read or write of 0xE000
falls through to the `unimplemented!()` / `panic!` catch-all (embedded
as `none`) instead of being routed to 0xC000, which itself reads fine. -/
theorem echo_ram_access_panics :
    echoBus.get_u8 0xE000 = none ∧
    echoBus.write_u8 0xE000 0x12 = none ∧
    echoBus.get_u8 0xC000 = some 0 := by
  refine ⟨rfl, rfl, by decide⟩

/-! ## Fetch and interrupt-dispatch lemmas -/

theorem get_u8_IF_eq (bus : MemoryBus) :
    bus.get_u8 IF = some bus.interrupts.get_interrupt_flag := rfl

theorem get_u8_IE_eq (bus : MemoryBus) :
    bus.get_u8 IE = some bus.interrupts.get_interrupt_enable := rfl

theorem write_u8_IF_eq (bus : MemoryBus) (v : Nat) :
    bus.write_u8 IF v =
      some { bus with interrupts := bus.interrupts.set_interrupt_flag v } := rfl

theorem get_interrupt_flag_lt (i : Interrupts) : i.get_interrupt_flag < 32 := by
  unfold Interrupts.get_interrupt_flag
  cases h0 : i.vblank_requested <;> cases h1 : i.lcd_stat_requested <;>
    cases h2 : i.timer_requested <;> cases h3 : i.serial_requested <;>
      cases h4 : i.joypad_requested <;> decide

theorem trailingZeros8_lt_five : ∀ t, t < 32 → t ≠ 0 → trailingZeros8 t < 5 := by
  decide

/-- The fetch step: a successful `next_instruction` changes nothing but
PC, which advances by the decoded instruction's byte length (mod 2^16). -/
theorem next_instruction_spec (cpu : CPU) (bus : MemoryBus) (cpu1 : CPU)
    (instr : Instruction) (h : cpu.next_instruction bus = some (cpu1, instr)) :
    cpu1 = { cpu with PC := wadd16 cpu.PC instr.byte_len } := by
  unfold CPU.next_instruction at h
  cases hb : bus.get_instr cpu.PC with
  | none => rw [hb] at h; simp at h
  | some bytes =>
    rw [hb] at h
    simp only [Option.some_bind, Option.bind_eq_bind] at h
    cases hp : Instruction.parse bytes with
    | none => rw [hp] at h; simp at h
    | some pr =>
      rw [hp] at h
      simp at h
      obtain ⟨h1, h2⟩ := h
      rw [← h1, h2]

/-- A halted CPU with no pending enabled interrupt still fetches: `tick`
returns 1 M-cycle with PC advanced past the instruction at the entry PC. -/
theorem tick_halted_fetches (cpu : CPU) (bus : MemoryBus) (cpu1 : CPU)
    (instr : Instruction)
    (hfetch : cpu.next_instruction bus = some (cpu1, instr))
    (hhalt : cpu.halted = true)
    (htrig : bus.interrupts.get_interrupt_flag &&&
      bus.interrupts.get_interrupt_enable = 0) :
    CPU.tick cpu bus = some (cpu1, bus, 1) := by
  have hc1 := next_instruction_spec _ _ _ _ hfetch
  subst hc1
  simp [CPU.tick, CPU.handle_interrupt, hfetch, hhalt, get_u8_IF_eq,
    get_u8_IE_eq, htrig]

/-- `handle_interrupt` under dispatch conditions: clears IME, wakes the
CPU, clears the pending bit, pushes PC, jumps to the vector, returns 4. -/
theorem handle_interrupt_dispatch (cpu : CPU) (bus : MemoryBus)
    (bus2 : MemoryBus) (sp2 : Nat)
    (hime : cpu.IME = true)
    (htrig : bus.interrupts.get_interrupt_flag &&&
      bus.interrupts.get_interrupt_enable ≠ 0)
    (hn : ¬(5 ≤ trailingZeros8 (bus.interrupts.get_interrupt_flag &&&
      bus.interrupts.get_interrupt_enable)))
    (hw : MemoryBus.write_stack_16
      { bus with
        interrupts := bus.interrupts.set_interrupt_flag (setBit8 bus.interrupts.get_interrupt_flag (trailingZeros8 (bus.interrupts.get_interrupt_flag &&& bus.interrupts.get_interrupt_enable)) false) }
      cpu.SP cpu.PC = some (bus2, sp2)) :
    cpu.handle_interrupt bus = some
      ({ cpu with
          halted := false, IME := false, SP := sp2,
          PC := 0x0040 ||| trailingZeros8 (bus.interrupts.get_interrupt_flag &&&
            bus.interrupts.get_interrupt_enable) <<< 3 }, bus2, 4) := by
  unfold CPU.handle_interrupt
  rw [if_neg (by simp [hime])]
  rw [get_u8_IF_eq]
  simp only [Option.some_bind, Option.bind_eq_bind]
  rw [get_u8_IE_eq]
  simp only [Option.some_bind]
  rw [if_neg htrig]
  rw [if_neg (by simp [hime])]
  rw [if_neg hn]
  rw [write_u8_IF_eq]
  simp only [Option.some_bind]
  rw [hw]
  simp only [Option.some_bind]

/-- The interrupt-dispatch path of `tick`: with IME set and a pending
enabled interrupt, the fetch still happens first; dispatch pushes the
fetch-advanced PC, jumps to the vector of the lowest pending line, and
returns 4 M-cycles. -/
theorem tick_dispatch (cpu : CPU) (bus : MemoryBus) (cpu1 : CPU)
    (instr : Instruction)
    (hfetch : cpu.next_instruction bus = some (cpu1, instr))
    (hime : cpu.IME = true)
    (htrig : bus.interrupts.get_interrupt_flag &&&
      bus.interrupts.get_interrupt_enable ≠ 0)
    (hsp : cpu.SP < 65536)
    (h1 : writableRam ((cpu.SP + 65535) % 65536))
    (h2 : writableRam ((cpu.SP + 65534) % 65536)) :
    ∃ bus', CPU.tick cpu bus = some
      ({ cpu with
          PC := 0x0040 ||| trailingZeros8 (bus.interrupts.get_interrupt_flag &&&
            bus.interrupts.get_interrupt_enable) <<< 3,
          SP := (cpu.SP + 65534) % 65536, halted := false, IME := false },
        bus', 4) ∧
      bus'.get_stack_16 ((cpu.SP + 65534) % 65536) =
        some (wadd16 cpu.PC instr.byte_len, cpu.SP) := by
  have hc1 := next_instruction_spec _ _ _ _ hfetch
  subst hc1
  have hbound : bus.interrupts.get_interrupt_flag &&&
      bus.interrupts.get_interrupt_enable < 32 :=
    Nat.lt_of_le_of_lt (Nat.and_le_left) (get_interrupt_flag_lt _)
  have hn : ¬(5 ≤ trailingZeros8 (bus.interrupts.get_interrupt_flag &&&
      bus.interrupts.get_interrupt_enable)) :=
    Nat.not_le.mpr (trailingZeros8_lt_five _ hbound htrig)
  obtain ⟨bus2, hw, hr1, hr2⟩ := write_stack_16_writable
    { bus with
      interrupts := bus.interrupts.set_interrupt_flag (setBit8 bus.interrupts.get_interrupt_flag (trailingZeros8 (bus.interrupts.get_interrupt_flag &&& bus.interrupts.get_interrupt_enable)) false) }
    cpu.SP (wadd16 cpu.PC instr.byte_len) h1 h2
  have hhi := handle_interrupt_dispatch
    { cpu with PC := wadd16 cpu.PC instr.byte_len } bus bus2
    ((cpu.SP + 65534) % 65536) hime htrig hn hw
  refine ⟨bus2, ?_, ?_⟩
  · unfold CPU.tick
    rw [hfetch]
    simp only [Option.some_bind, Option.bind_eq_bind]
    rw [hhi]
    simp only [Option.some_bind]
    rfl
  · rw [get_stack_16_read bus2 cpu.SP _ _ hsp hr2 hr1,
      word_reassemble _ (by unfold wadd16; omega)]

/-- C1 counterexample: with the VBlank interrupt requested and enabled
and IME set, from PC = 0x0100 (a NOP) `tick` returns 4 M-cycles — not
the 5 the claim states — and the pushed return address is 0x0101, the
PC *advanced past* the fetched instruction, so the fetch was not
skipped. -/
theorem dispatch_returns_four_and_pushes_advanced_pc :
    (CPU.tick dispatchCPU dispatchBus).map (fun r => (r.1.PC, r.2.2)) =
      some (0x40, 4) ∧
    (CPU.tick dispatchCPU dispatchBus).bind
      (fun r => (r.2.1.get_stack_16 r.1.SP).map (·.1)) = some 0x0101 := by
  refine ⟨by decide, by decide⟩

/-- C1 (amended): for every CPU state with a pending enabled interrupt
(`IF & IE & 0x1F ≠ 0`) and IME set, whose fetch at PC succeeds and whose
two stack slots are writable RAM, `CPU.tick` fetches (advancing PC)
*first* and then dispatches the interrupt instead of executing: it
returns 4 M-cycles (not 5), pushes the fetch-advanced PC (entry PC plus
the instruction's byte length), and jumps to the vector of the
lowest-priority pending line. -/
theorem tick_dispatches_interrupt_after_fetch (cpu : CPU) (bus : MemoryBus)
    (cpu1 : CPU) (instr : Instruction)
    (hfetch : cpu.next_instruction bus = some (cpu1, instr))
    (hime : cpu.IME = true)
    (hpend : (bus.interrupts.get_interrupt_flag &&&
      bus.interrupts.get_interrupt_enable) &&& 0x1F ≠ 0)
    (hsp : cpu.SP < 65536)
    (h1 : writableRam ((cpu.SP + 65535) % 65536))
    (h2 : writableRam ((cpu.SP + 65534) % 65536)) :
    ∃ bus', CPU.tick cpu bus = some
      ({ cpu with
          PC := 0x0040 ||| trailingZeros8 (bus.interrupts.get_interrupt_flag &&&
            bus.interrupts.get_interrupt_enable) <<< 3,
          SP := (cpu.SP + 65534) % 65536, halted := false, IME := false },
        bus', 4) ∧
      bus'.get_stack_16 ((cpu.SP + 65534) % 65536) =
        some (wadd16 cpu.PC instr.byte_len, cpu.SP) := by
  refine tick_dispatch cpu bus cpu1 instr hfetch hime ?_ hsp h1 h2
  intro h0
  exact hpend (by rw [h0]; rfl)

/-- C1 witness: the amended theorem at the concrete dispatch state. -/
theorem tick_dispatches_interrupt_after_fetch_witness :
    ∃ bus', CPU.tick dispatchCPU dispatchBus = some
      ({ dispatchCPU with
          PC := 0x0040 ||| trailingZeros8
            (dispatchBus.interrupts.get_interrupt_flag &&&
              dispatchBus.interrupts.get_interrupt_enable) <<< 3,
          SP := (dispatchCPU.SP + 65534) % 65536, halted := false,
          IME := false }, bus', 4) ∧
      bus'.get_stack_16 ((dispatchCPU.SP + 65534) % 65536) =
        some (wadd16 dispatchCPU.PC Instruction.Nop.byte_len, dispatchCPU.SP) :=
  tick_dispatches_interrupt_after_fetch dispatchCPU dispatchBus
    { dispatchCPU with PC := 0x101 } .Nop (by decide) rfl (by decide)
    (by decide) (by decide) (by decide)

/-- C10: every call to `CPU.tick` performs the fetch first: given that
decoding at the entry PC succeeds, (a) the fetch state differs from the
entry state only in PC, advanced by the instruction's byte length;
(b) on a halted CPU with no pending enabled interrupt, `tick` returns 1
M-cycle with exactly that PC-advanced state, although nothing executes;
(c) when an interrupt is dispatched, the word pushed on the stack is the
advanced PC, so PC moved before the instruction was abandoned. -/
theorem tick_always_fetches_and_advances_pc (cpu : CPU) (bus : MemoryBus)
    (cpu1 : CPU) (instr : Instruction)
    (hfetch : cpu.next_instruction bus = some (cpu1, instr)) :
    cpu1 = { cpu with PC := wadd16 cpu.PC instr.byte_len } ∧
    (cpu.halted = true →
      bus.interrupts.get_interrupt_flag &&&
        bus.interrupts.get_interrupt_enable = 0 →
      CPU.tick cpu bus = some (cpu1, bus, 1)) ∧
    (cpu.IME = true →
      bus.interrupts.get_interrupt_flag &&&
        bus.interrupts.get_interrupt_enable ≠ 0 →
      cpu.SP < 65536 →
      writableRam ((cpu.SP + 65535) % 65536) →
      writableRam ((cpu.SP + 65534) % 65536) →
      ∃ cpu' bus', CPU.tick cpu bus = some (cpu', bus', 4) ∧
        bus'.get_stack_16 cpu'.SP =
          some (wadd16 cpu.PC instr.byte_len, cpu.SP)) := by
  refine ⟨next_instruction_spec _ _ _ _ hfetch, ?_, ?_⟩
  · intro hhalt htrig
    exact tick_halted_fetches cpu bus cpu1 instr hfetch hhalt htrig
  · intro hime htrig hsp h1 h2
    obtain ⟨bus', htick, hread⟩ := tick_dispatch cpu bus cpu1 instr hfetch
      hime htrig hsp h1 h2
    exact ⟨_, bus', htick, hread⟩

/-- C10 witness: the theorem at a halted CPU over a NOP ROM, where both
the fetch hypothesis and the part-(b) premises hold concretely. -/
theorem tick_always_fetches_and_advances_pc_witness :
    ({ haltedCPU with PC := 0x101 } : CPU) =
      { haltedCPU with PC := wadd16 haltedCPU.PC Instruction.Nop.byte_len } ∧
    (haltedCPU.halted = true →
      haltedBus.interrupts.get_interrupt_flag &&&
        haltedBus.interrupts.get_interrupt_enable = 0 →
      CPU.tick haltedCPU haltedBus =
        some ({ haltedCPU with PC := 0x101 }, haltedBus, 1)) ∧
    (haltedCPU.IME = true →
      haltedBus.interrupts.get_interrupt_flag &&&
        haltedBus.interrupts.get_interrupt_enable ≠ 0 →
      haltedCPU.SP < 65536 →
      writableRam ((haltedCPU.SP + 65535) % 65536) →
      writableRam ((haltedCPU.SP + 65534) % 65536) →
      ∃ cpu' bus', CPU.tick haltedCPU haltedBus = some (cpu', bus', 4) ∧
        bus'.get_stack_16 cpu'.SP =
          some (wadd16 haltedCPU.PC Instruction.Nop.byte_len, haltedCPU.SP)) :=
  tick_always_fetches_and_advances_pc haltedCPU haltedBus
    { haltedCPU with PC := 0x101 } .Nop (by decide)

/-- C3: `POP AF` stores the popped low byte into `F` unmasked
(`ALU::write_16` is the generic pair write).  Running the five
instructions of `popAfRom` from reset pops `0xFFFF` into AF and leaves
`F = 0xFF`, whose low nibble is `0xF ≠ 0` — refuting both the masking
behaviour and the low-nibble invariant the claim states. -/
theorem pop_af_flags_low_nibble_not_masked :
    (runTicks 5 CPU.default (MemoryBus.new popAfRom)).map (fun r => r.1.Flags) =
      some 0xFF := by
  decide

/-! ## PPU frame-clock lemmas (C9) -/

theorem get_u8_SCROLL_X_eq (bus : MemoryBus) :
    bus.get_u8 SCROLL_X = some bus.lcd.scroll_x := rfl

theorem get_u8_PALLETE_eq (bus : MemoryBus) :
    bus.get_u8 PALLETE = some bus.lcd.background_pallete := rfl

theorem get_u8_SCROLL_Y_eq (bus : MemoryBus) :
    bus.get_u8 SCROLL_Y = some bus.lcd.scroll_y := rfl

theorem get_u8_LCD_Y_eq (bus : MemoryBus) :
    bus.get_u8 LCD_Y = some bus.lcd.lcd_y := rfl

theorem get_u8_LCDC_eq (bus : MemoryBus) :
    bus.get_u8 LCDC = some bus.lcd.lcd_control := rfl

theorem get_u8_vram (bus : MemoryBus) (a : Nat) (h1 : 0x8000 ≤ a)
    (h2 : a ≤ 0x9FFF) : bus.get_u8 a = some (bus.vram (a - 0x8000)) := by
  unfold MemoryBus.get_u8
  rw [if_neg (by omega), if_pos (by omega)]

theorem set_color_some (bus : MemoryBus) (fb : FrameBuffer) (x c : Nat) :
    ∃ fb', PPU.set_color bus fb x c = some fb' := ⟨_, rfl⟩

theorem getBits_two_lt (p a : Nat) : getBits p a (a + 2) < 4 := by
  unfold getBits
  have h : a + 2 - a = 2 := by omega
  rw [h]
  exact Nat.mod_lt _ (by norm_num)

theorem color_id_lt (b b' : Bool) :
    ((if b then 1 else 0) <<< 1 ||| (if b' then 1 else 0) : Nat) < 4 := by
  cases b <;> cases b' <;> decide

theorem draw_bg_tail_some (bus : MemoryBus) (fb : FrameBuffer) (x cid p : Nat)
    (hcid : cid < 4) :
    ∃ fb',
      (if cid = 0 then
        (if getBits p 0 2 = 0 then PPU.set_color bus fb x 255
         else if getBits p 0 2 = 1 then PPU.set_color bus fb x 192
         else if getBits p 0 2 = 2 then PPU.set_color bus fb x 95
         else if getBits p 0 2 = 3 then PPU.set_color bus fb x 0
         else (none : Option Nat).bind fun y => PPU.set_color bus fb x y)
       else if cid = 1 then
        (if getBits p 2 4 = 0 then PPU.set_color bus fb x 255
         else if getBits p 2 4 = 1 then PPU.set_color bus fb x 192
         else if getBits p 2 4 = 2 then PPU.set_color bus fb x 95
         else if getBits p 2 4 = 3 then PPU.set_color bus fb x 0
         else (none : Option Nat).bind fun y => PPU.set_color bus fb x y)
       else if cid = 2 then
        (if getBits p 4 6 = 0 then PPU.set_color bus fb x 255
         else if getBits p 4 6 = 1 then PPU.set_color bus fb x 192
         else if getBits p 4 6 = 2 then PPU.set_color bus fb x 95
         else if getBits p 4 6 = 3 then PPU.set_color bus fb x 0
         else (none : Option Nat).bind fun y => PPU.set_color bus fb x y)
       else if cid = 3 then
        (if getBits p 6 8 = 0 then PPU.set_color bus fb x 255
         else if getBits p 6 8 = 1 then PPU.set_color bus fb x 192
         else if getBits p 6 8 = 2 then PPU.set_color bus fb x 95
         else if getBits p 6 8 = 3 then PPU.set_color bus fb x 0
         else (none : Option Nat).bind fun y => PPU.set_color bus fb x y)
       else (none : Option Nat).bind fun y =>
         if y = 0 then PPU.set_color bus fb x 255
         else if y = 1 then PPU.set_color bus fb x 192
         else if y = 2 then PPU.set_color bus fb x 95
         else if y = 3 then PPU.set_color bus fb x 0
         else (none : Option Nat).bind fun y => PPU.set_color bus fb x y) =
        some fb' := by
  have g0 : getBits p 0 2 < 4 := getBits_two_lt p 0
  have g2 : getBits p 2 4 < 4 := getBits_two_lt p 2
  have g4 : getBits p 4 6 < 4 := getBits_two_lt p 4
  have g6 : getBits p 6 8 < 4 := getBits_two_lt p 6
  interval_cases cid <;> norm_num
  · set r := getBits p 0 2 with hr
    interval_cases r <;> norm_num <;> exact set_color_some bus fb x _
  · set r := getBits p 2 4 with hr
    interval_cases r <;> norm_num <;> exact set_color_some bus fb x _
  · set r := getBits p 4 6 with hr
    interval_cases r <;> norm_num <;> exact set_color_some bus fb x _
  · set r := getBits p 6 8 with hr
    interval_cases r <;> norm_num <;> exact set_color_some bus fb x _

theorem draw_bg_pixel_some (bus : MemoryBus) (lc bty bgy : Nat)
    (fb : FrameBuffer) (x : Nat)
    (hv : ∀ i, bus.vram i < 256) (hbty : bty ≤ 31) :
    ∃ fb', PPU.draw_bg_pixel bus lc bty bgy fb x = some fb' := by
  unfold PPU.draw_bg_pixel
  rw [get_u8_SCROLL_X_eq]
  simp only [Option.bind_eq_bind, Option.some_bind]
  have htx : (bus.lcd.scroll_x + x) >>> 3 &&& 31 ≤ 31 := Nat.and_le_right
  rw [get_u8_vram bus
    ((if Nat.testBit lc 3 then 0x9C00 else 0x9800) + bty * 32 +
      ((bus.lcd.scroll_x + x) >>> 3 &&& 31))
    (by split <;> omega) (by split <;> omega)]
  simp only [Option.some_bind]
  have htn : bus.vram ((if Nat.testBit lc 3 then 0x9C00 else 0x9800) + bty * 32 +
      ((bus.lcd.scroll_x + x) >>> 3 &&& 31) - 0x8000) < 256 := hv _
  set tn : Nat := bus.vram ((if Nat.testBit lc 3 then 0x9C00 else 0x9800) + bty * 32 +
      ((bus.lcd.scroll_x + x) >>> 3 &&& 31) - 0x8000) with htndef
  have hpy : bgy &&& 7 ≤ 7 := Nat.and_le_right
  have haddr : ∀ k, 0x8000 ≤ ((if Nat.testBit lc 4 then 0x8000 else 0x8800) +
      (if (if Nat.testBit lc 4 then (0x8000:Nat) else 0x8800) = 0x8000 then tn * 16
        else (if tn < 128 then tn + 128 else tn - 128) * 16)) % 65536 +
      (bgy &&& 7) * 2 + k ∧
      ((if Nat.testBit lc 4 then 0x8000 else 0x8800) +
      (if (if Nat.testBit lc 4 then (0x8000:Nat) else 0x8800) = 0x8000 then tn * 16
        else (if tn < 128 then tn + 128 else tn - 128) * 16)) % 65536 +
      (bgy &&& 7) * 2 + k ≤ 0x9FFF - 1 + k := by
    intro k
    by_cases hb4 : Nat.testBit lc 4 <;>
      simp only [hb4, if_true, if_false] <;> norm_num <;>
      first
      | (split <;> omega)
      | omega
  have h0 := haddr 0
  rw [Nat.add_zero] at h0
  rw [get_u8_vram bus _ h0.1 (by have := h0.2; omega)]
  simp only [Option.some_bind]
  rw [get_u8_vram bus _ ((haddr 1).1) (by have := (haddr 1).2; omega)]
  simp only [Option.some_bind]
  rw [get_u8_PALLETE_eq]
  simp only [Option.some_bind]
  apply draw_bg_tail_some
  exact color_id_lt _ _

theorem foldlM_some {α : Type} (step : FrameBuffer → α → Option FrameBuffer)
    (l : List α) (fb : FrameBuffer)
    (h : ∀ fb a, a ∈ l → ∃ fb', step fb a = some fb') :
    ∃ fb', List.foldlM step fb l = some fb' := by
  induction l generalizing fb with
  | nil => exact ⟨fb, rfl⟩
  | cons a t ih =>
    obtain ⟨fb1, h1⟩ := h fb a (List.mem_cons_self a t)
    rw [List.foldlM_cons, h1]
    simp only [Option.bind_eq_bind, Option.some_bind]
    exact ih fb1 fun fb b hb => h fb b (List.mem_cons_of_mem a hb)


theorem draw_bg_some (bus : MemoryBus) (fb : FrameBuffer)
    (hv : ∀ i, bus.vram i < 256) :
    ∃ fb', PPU.draw_bg bus fb = some fb' := by
  unfold PPU.draw_bg
  rw [get_u8_LCDC_eq]
  simp only [Option.bind_eq_bind, Option.some_bind]
  split
  · exact ⟨fb, rfl⟩
  · simp only [get_u8_LCD_Y_eq, get_u8_SCROLL_Y_eq, Option.some_bind]
    exact foldlM_some _ _ fb fun fb' x _ =>
      draw_bg_pixel_some bus _ _ _ fb' x hv Nat.and_le_right

theorem render_scanline_some (bus : MemoryBus) (fb : FrameBuffer)
    (hv : ∀ i, bus.vram i < 256) :
    ∃ fb', PPU.render_scanline bus fb = some fb' := by
  unfold PPU.render_scanline
  obtain ⟨fb1, h1⟩ := foldlM_some (fun fb x => PPU.set_color bus fb x 255)
    (List.range GAMEBOY_WIDTH) fb fun fb' x _ => set_color_some bus fb' x 255
  rw [h1]
  simp only [Option.bind_eq_bind, Option.some_bind]
  exact draw_bg_some bus fb1 hv

theorem cmn_23 (p : PPU) (m : Nat) (bus : MemoryBus) (fb : FrameBuffer)
    (hm : m = 2 ∨ m = 3) :
    PPU.change_mode_if_necessary p m bus fb =
      some ({ p with mode := m }, bus, fb) := by
  unfold PPU.change_mode_if_necessary PPU.change_mode
  by_cases h : p.mode = m
  · rw [if_neg (by simpa using h)]
    subst h
    rfl
  · rw [if_pos h]
    rcases hm with rfl | rfl <;> norm_num

theorem cmn_0 (p : PPU) (bus : MemoryBus) (fb : FrameBuffer)
    (hv : ∀ i, bus.vram i < 256) :
    ∃ p' fb', PPU.change_mode_if_necessary p 0 bus fb = some (p', bus, fb') ∧
      p'.mode = 0 ∧ p'.updated = p.updated ∧ p'.mode_clock = p.mode_clock := by
  by_cases h : p.mode = 0
  · refine ⟨p, fb, ?_, h, rfl, rfl⟩
    unfold PPU.change_mode_if_necessary
    rw [if_neg (by simpa using h)]
  · obtain ⟨fb', hr⟩ := render_scanline_some bus fb hv
    refine ⟨{ p with mode := 0, hblanking := true }, fb', ?_, rfl, rfl, rfl⟩
    unfold PPU.change_mode_if_necessary PPU.change_mode
    rw [if_pos h]
    simp [hr]

theorem cmn_1 (p : PPU) (bus : MemoryBus) (fb : FrameBuffer) :
    ∃ p' bus', PPU.change_mode_if_necessary p 1 bus fb = some (p', bus', fb) ∧
      p'.mode = 1 ∧ p'.mode_clock = p.mode_clock ∧
      p'.updated = (if p.mode = 1 then p.updated else true) ∧
      (bus' = bus ∨ bus' = bus.request_interrupt .VBlank) := by
  by_cases h : p.mode = 1
  · refine ⟨p, bus, ?_, h, rfl, by rw [if_pos h], Or.inl rfl⟩
    unfold PPU.change_mode_if_necessary
    rw [if_neg (by simpa using h)]
  · refine ⟨{ p with mode := 1, updated := true },
      bus.request_interrupt .VBlank, ?_, rfl, rfl, by rw [if_neg h], Or.inr rfl⟩
    unfold PPU.change_mode_if_necessary PPU.change_mode
    rw [if_pos h]
    norm_num

theorem mkBus_write_LCD_Y (b0 : MemoryBus) (y v : Nat) (i : Interrupts) :
    (mkBus b0 y i).write_u8 LCD_Y v = some (mkBus b0 v i) := rfl

theorem mkBus_request (b0 : MemoryBus) (y : Nat) (i : Interrupts) :
    (mkBus b0 y i).request_interrupt .VBlank =
      mkBus b0 y { i with vblank_requested := true } := rfl

theorem tickLoop_inv (b0 : MemoryBus) (hv : ∀ i, b0.vram i < 256) :
    ∀ tl t (p : PPU) (fb : FrameBuffer) (intr : Interrupts),
      t + tl ≤ 70224 →
      p.mode_clock = clockAt t →
      (p.updated = true ↔ 65664 ≤ t) →
      p.mode = (if t = 0 then 0 else modeAt t) →
      ∃ p' fb' intr',
        PPU.tickLoop p (mkBus b0 (lyAt t) intr) fb (lyAt t) tl =
          some (p', mkBus b0 (lyAt (t + tl)) intr', fb') ∧
        p'.mode_clock = clockAt (t + tl) ∧
        (p'.updated = true ↔ 65664 ≤ t + tl) ∧
        p'.mode = (if t + tl = 0 then 0 else modeAt (t + tl)) := by
  intro tl
  induction tl using Nat.strong_induction_on with
  | _ tl ih =>
    intro t p fb intr hbound hclock hupd hmode
    by_cases h0 : tl = 0
    · subst h0
      refine ⟨p, fb, intr, ?_, by simpa using hclock, by simpa using hupd,
        by simpa using hmode⟩
      unfold PPU.tickLoop
      simp
    · rw [PPU.tickLoop, dif_neg h0]
      have hcur1 : 1 ≤ min tl 80 := by omega
      have hcur80 : min tl 80 ≤ 80 := by omega
      set cur := min tl 80 with hcurdef
      have hrec : tl - cur < tl := by omega
      have htcur : t + cur + (tl - cur) = t + tl := by omega
      have hCbound : clockAt t < 456 := by unfold clockAt; omega
      rw [hclock]
      by_cases hwrap : 456 ≤ clockAt t + cur
      · -- the scan-line counter wraps inside this chunk
        have hly' : (lyAt t + 1) % 256 % 154 = lyAt (t + cur) := by
          unfold lyAt clockAt at *
          omega
        have htne : t ≠ 0 := by
          unfold clockAt at hwrap hCbound
          omega
        have hck' : clockAt t + cur - 456 = clockAt (t + cur) := by
          unfold clockAt at *
          omega
        rw [if_pos hwrap]
        rw [hly']
        simp only [mkBus_write_LCD_Y, Option.bind_eq_bind, Option.some_bind]
        by_cases hly144 : 144 ≤ lyAt (t + cur)
        · -- wrapped into (or stayed within) the vblank region
          rw [if_pos hly144]
          obtain ⟨p2, bus2, hcmn, hm2, hck2, hu2, hbus2⟩ :=
            cmn_1 { p with mode_clock := clockAt t + cur - 456 }
              (mkBus b0 (lyAt (t + cur)) intr) fb
          rw [hcmn]
          simp only [Option.map_some', Option.some_bind]
          rw [if_neg (by omega)]
          have hck2' : p2.mode_clock = clockAt (t + cur) := by
            rw [hck2]
            exact hck'
          have hmode1 : p.mode = 1 ↔ 65664 ≤ t := by
            rw [hmode, if_neg htne]
            unfold modeAt lyAt clockAt at *
            constructor
            · intro hm
              by_contra hlt
              rw [if_neg (by omega)] at hm
              split at hm
              · omega
              · split at hm <;> omega
            · intro h65
              rw [if_pos (by omega)]
          have h65cur : 65664 ≤ t + cur := by
            unfold lyAt clockAt at *
            omega
          have hu2' : p2.updated = true ↔ 65664 ≤ t + cur := by
            rw [hu2]
            show (if p.mode = 1 then p.updated else true) = true ↔ _
            by_cases hm1 : p.mode = 1
            · rw [if_pos hm1]
              rw [hupd]
              have h65t : 65664 ≤ t := hmode1.mp hm1
              simp [h65t, h65cur]
            · rw [if_neg hm1]
              simp [h65cur]
          have hm2' : p2.mode = (if t + cur = 0 then 0 else modeAt (t + cur)) := by
            rw [hm2, if_neg (by omega), modeAt, if_pos hly144]
          rcases hbus2 with rfl | rfl
          · obtain ⟨p', fb', intr', hrun, h1, h2, h3⟩ :=
              ih (tl - cur) hrec (t + cur) p2 fb intr (by omega) hck2' hu2' hm2'
            rw [hrun, htcur]
            rw [htcur] at h1 h2 h3
            exact ⟨p', fb', intr', rfl, h1, h2, h3⟩
          · rw [mkBus_request]
            obtain ⟨p', fb', intr', hrun, h1, h2, h3⟩ :=
              ih (tl - cur) hrec (t + cur) p2 fb
                { intr with vblank_requested := true } (by omega) hck2' hu2' hm2'
            rw [hrun, htcur]
            rw [htcur] at h1 h2 h3
            exact ⟨p', fb', intr', rfl, h1, h2, h3⟩
        · -- wrapped onto a visible scan line, so the new clock is below 80
          have hckle : clockAt t + cur - 456 ≤ 80 := by omega
          rw [if_neg hly144, if_pos (by omega), if_pos hckle]
          rw [cmn_23 _ 2 _ _ (Or.inl rfl)]
          simp only [Option.some_bind]
          have h65eq : 65664 ≤ t ↔ 65664 ≤ t + cur := by
            unfold lyAt clockAt at *
            omega
          have hck2' : ({ p with mode_clock := clockAt t + cur - 456, mode := 2 } : PPU).mode_clock = clockAt (t + cur) := hck'
          have hu2' : ({ p with mode_clock := clockAt t + cur - 456, mode := 2 } : PPU).updated = true ↔ 65664 ≤ t + cur := by
            show p.updated = true ↔ _
            rw [hupd]
            exact h65eq
          have hm2' : ({ p with mode_clock := clockAt t + cur - 456, mode := 2 } : PPU).mode = (if t + cur = 0 then 0 else modeAt (t + cur)) := by
            show 2 = _
            rw [if_neg (by omega), modeAt, if_neg hly144, if_pos (by rw [← hck']; omega)]
          obtain ⟨p', fb', intr', hrun, h1, h2, h3⟩ :=
            ih (tl - cur) hrec (t + cur)
              { p with mode_clock := clockAt t + cur - 456, mode := 2 } fb intr
              (by omega) hck2' hu2' hm2'
          rw [hrun, htcur]
          rw [htcur] at h1 h2 h3
          exact ⟨p', fb', intr', rfl, h1, h2, h3⟩
      · -- no wrap: the clock just advances within the line
        have hckeq : clockAt t + cur = clockAt (t + cur) := by
          unfold clockAt at *
          omega
        have hlyeq : lyAt t = lyAt (t + cur) := by
          unfold lyAt clockAt at *
          omega
        have h65eq : 65664 ≤ t ↔ 65664 ≤ t + cur := by
          unfold clockAt at *
          omega
        rw [if_neg hwrap]
        simp only [Option.bind_eq_bind, Option.some_bind]
        by_cases hly144 : lyAt t < 144
        · rw [if_pos hly144]
          by_cases hc80 : clockAt t + cur ≤ 80
          · rw [if_pos hc80]
            rw [cmn_23 _ 2 _ _ (Or.inl rfl)]
            simp only [Option.some_bind]
            have hck2' : ({ p with mode_clock := clockAt t + cur, mode := 2 } : PPU).mode_clock = clockAt (t + cur) := hckeq
            have hu2' : ({ p with mode_clock := clockAt t + cur, mode := 2 } : PPU).updated = true ↔ 65664 ≤ t + cur := by
              show p.updated = true ↔ _
              rw [hupd]
              exact h65eq
            have hm2' : ({ p with mode_clock := clockAt t + cur, mode := 2 } : PPU).mode = (if t + cur = 0 then 0 else modeAt (t + cur)) := by
              show 2 = _
              rw [if_neg (by omega), modeAt, if_neg (by omega), if_pos (by rw [← hckeq]; omega)]
            obtain ⟨p', fb', intr', hrun, h1, h2, h3⟩ :=
              ih (tl - cur) hrec (t + cur)
                { p with mode_clock := clockAt t + cur, mode := 2 } fb intr
                (by omega) hck2' hu2' hm2'
            rw [hlyeq, hrun, htcur]
            rw [htcur] at h1 h2 h3
            exact ⟨p', fb', intr', rfl, h1, h2, h3⟩
          · rw [if_neg hc80]
            by_cases hc252 : clockAt t + cur ≤ 252
            · rw [if_pos hc252]
              rw [cmn_23 _ 3 _ _ (Or.inr rfl)]
              simp only [Option.some_bind]
              have hck2' : ({ p with mode_clock := clockAt t + cur, mode := 3 } : PPU).mode_clock = clockAt (t + cur) := hckeq
              have hu2' : ({ p with mode_clock := clockAt t + cur, mode := 3 } : PPU).updated = true ↔ 65664 ≤ t + cur := by
                show p.updated = true ↔ _
                rw [hupd]
                exact h65eq
              have hm2' : ({ p with mode_clock := clockAt t + cur, mode := 3 } : PPU).mode = (if t + cur = 0 then 0 else modeAt (t + cur)) := by
                show 3 = _
                rw [if_neg (by omega), modeAt, if_neg (by omega), if_neg (by rw [← hckeq]; omega), if_pos (by rw [← hckeq]; omega)]
              obtain ⟨p', fb', intr', hrun, h1, h2, h3⟩ :=
                ih (tl - cur) hrec (t + cur)
                  { p with mode_clock := clockAt t + cur, mode := 3 } fb intr
                  (by omega) hck2' hu2' hm2'
              rw [hlyeq, hrun, htcur]
              rw [htcur] at h1 h2 h3
              exact ⟨p', fb', intr', rfl, h1, h2, h3⟩
            · rw [if_neg hc252]
              obtain ⟨p2, fb2, hcmn, hm2, hu2, hck2⟩ :=
                cmn_0 { p with mode_clock := clockAt t + cur }
                  (mkBus b0 (lyAt t) intr) fb (fun i => hv i)
              rw [hcmn]
              simp only [Option.some_bind]
              have hck2' : p2.mode_clock = clockAt (t + cur) := by
                rw [hck2]
                exact hckeq
              have hu2' : p2.updated = true ↔ 65664 ≤ t + cur := by
                rw [hu2]
                show p.updated = true ↔ _
                rw [hupd]
                exact h65eq
              have hm2' : p2.mode = (if t + cur = 0 then 0 else modeAt (t + cur)) := by
                rw [hm2, if_neg (by omega), modeAt, if_neg (by omega), if_neg (by rw [← hckeq]; omega), if_neg (by rw [← hckeq]; omega)]
              obtain ⟨p', fb', intr', hrun, h1, h2, h3⟩ :=
                ih (tl - cur) hrec (t + cur) p2 fb2 intr (by omega) hck2' hu2' hm2'
              rw [hlyeq, hrun, htcur]
              rw [htcur] at h1 h2 h3
              exact ⟨p', fb', intr', rfl, h1, h2, h3⟩
        · -- already in the vblank region, no mode change
          rw [if_neg hly144]
          have h65t : 65664 ≤ t := by
            unfold lyAt clockAt at *
            omega
          have htne : t ≠ 0 := by omega
          have hck2' : ({ p with mode_clock := clockAt t + cur } : PPU).mode_clock = clockAt (t + cur) := hckeq
          have hu2' : ({ p with mode_clock := clockAt t + cur } : PPU).updated = true ↔ 65664 ≤ t + cur := by
            show p.updated = true ↔ _
            rw [hupd]
            exact h65eq
          have hm2' : ({ p with mode_clock := clockAt t + cur } : PPU).mode = (if t + cur = 0 then 0 else modeAt (t + cur)) := by
            show p.mode = _
            rw [hmode, if_neg htne, if_neg (by omega), modeAt, modeAt, if_pos (by omega), if_pos (by rw [← hlyeq]; omega)]
          obtain ⟨p', fb', intr', hrun, h1, h2, h3⟩ :=
            ih (tl - cur) hrec (t + cur)
              { p with mode_clock := clockAt t + cur } fb intr
              (by omega) hck2' hu2' hm2'
          rw [hlyeq, hrun, htcur]
          rw [htcur] at h1 h2 h3
          exact ⟨p', fb', intr', rfl, h1, h2, h3⟩

theorem mkBus_get_LCDC (b0 : MemoryBus) (y : Nat) (i : Interrupts) :
    (mkBus b0 y i).get_u8 LCDC = some b0.lcd.lcd_control := rfl

theorem mkBus_get_LCD_Y (b0 : MemoryBus) (y : Nat) (i : Interrupts) :
    (mkBus b0 y i).get_u8 LCD_Y = some y := rfl

theorem mkBus_self (b0 : MemoryBus) (hly : b0.lcd.lcd_y = 0) :
    b0 = mkBus b0 0 b0.interrupts := by
  unfold mkBus
  rw [← hly]

theorem tick_inv (b0 : MemoryBus) (hv : ∀ i, b0.vram i < 256)
    (hctl : Nat.testBit b0.lcd.lcd_control 7 = true)
    (t n : Nat) (p : PPU) (fb : FrameBuffer) (intr : Interrupts)
    (hbound : t + n ≤ 70224)
    (hclock : p.mode_clock = clockAt t)
    (hupd : p.updated = true ↔ 65664 ≤ t)
    (hmode : p.mode = (if t = 0 then 0 else modeAt t)) :
    ∃ p' fb' intr',
      PPU.tick p (mkBus b0 (lyAt t) intr) fb n =
        some (p', mkBus b0 (lyAt (t + n)) intr', fb') ∧
      p'.mode_clock = clockAt (t + n) ∧
      (p'.updated = true ↔ 65664 ≤ t + n) ∧
      p'.mode = (if t + n = 0 then 0 else modeAt (t + n)) := by
  unfold PPU.tick
  rw [mkBus_get_LCDC]
  simp only [Option.bind_eq_bind, Option.some_bind]
  rw [if_neg (by simp [hctl])]
  rw [mkBus_get_LCD_Y]
  simp only [Option.some_bind]
  exact tickLoop_inv b0 hv n t { p with hblanking := false } fb intr hbound
    hclock hupd hmode

theorem run_inv (b0 : MemoryBus) (hv : ∀ i, b0.vram i < 256)
    (hctl : Nat.testBit b0.lcd.lcd_control 7 = true) :
    ∀ (credits : List Nat) (t : Nat) (s : PPU × MemoryBus × FrameBuffer),
      PPUInv b0 t s → t + credits.sum ≤ 70224 →
      ∃ s', PPU.run s credits = some s' ∧ PPUInv b0 (t + credits.sum) s' := by
  intro credits
  induction credits with
  | nil =>
    intro t s hinv hb
    exact ⟨s, rfl, by simpa using hinv⟩
  | cons c cs ih =>
    intro t s hinv hb
    obtain ⟨p, bus, fb⟩ := s
    obtain ⟨hclock, ⟨intr, hbus⟩, hupd, hmode⟩ := hinv
    subst hbus
    have hb' : t + c + cs.sum ≤ 70224 := by
      simp only [List.sum_cons] at hb
      omega
    obtain ⟨p', fb', intr', hrun, h1, h2, h3⟩ :=
      tick_inv b0 hv hctl t c p fb intr (by omega) hclock hupd hmode
    obtain ⟨s', hrun2, hinv'⟩ :=
      ih (t + c) (p', mkBus b0 (lyAt (t + c)) intr', fb')
        ⟨h1, ⟨intr', rfl⟩, h2, h3⟩ hb'
    refine ⟨s', ?_, ?_⟩
    · unfold PPU.run at hrun2 ⊢
      rw [List.foldlM_cons]
      show (PPU.tick p (mkBus b0 (lyAt t) intr) fb c).bind _ = _
      rw [hrun]
      simpa using hrun2
    · simpa [Nat.add_assoc] using hinv'

/-- C9: starting from the PPU reset state (`updated = false`,
`mode_clock = 0`) over a bus whose LCDC bit 7 is set and whose LY is 0,
any sequence of `PPU::tick` calls whose T-cycle credits sum to
`t ≤ 70224` succeeds and leaves LY at `(t / 456) % 154` and the mode
clock at `t % 456`, and the frame-ready flag `updated` is set if and
only if `65664 ≤ t` — i.e. it is set exactly once per frame, at the
transition into mode 1 when LY reaches 144 (`t = 144 * 456 = 65664`),
and stays set through the end of the frame; at `t = 70224` LY has run
through all 154 lines back to 0 with the flag set. -/
theorem ppu_frame_clock (b0 : MemoryBus) (fb : FrameBuffer)
    (credits : List Nat)
    (hv : ∀ i, b0.vram i < 256)
    (hctl : Nat.testBit b0.lcd.lcd_control 7 = true)
    (hly : b0.lcd.lcd_y = 0)
    (hsum : credits.sum ≤ 70224) :
    ∃ p' bus' fb',
      PPU.run (PPU.default, b0, fb) credits = some (p', bus', fb') ∧
      bus'.lcd.lcd_y = (credits.sum / 456) % 154 ∧
      p'.mode_clock = credits.sum % 456 ∧
      (p'.updated = true ↔ 65664 ≤ credits.sum) := by
  have hinv0 : PPUInv b0 0 (PPU.default, b0, fb) := by
    refine ⟨rfl, ⟨b0.interrupts, ?_⟩, by simp [PPU.default], by simp [PPU.default]⟩
    show b0 = mkBus b0 (lyAt 0) b0.interrupts
    exact mkBus_self b0 hly
  obtain ⟨s', hrun, hinv'⟩ :=
    run_inv b0 hv hctl credits 0 (PPU.default, b0, fb) hinv0 (by omega)
  obtain ⟨p', bus', fb'⟩ := s'
  obtain ⟨hclock, ⟨intr', hbus⟩, hupd, _⟩ := hinv'
  simp only [Nat.zero_add] at hclock hupd hbus hrun
  refine ⟨p', bus', fb', hrun, ?_, hclock, hupd⟩
  rw [hbus]
  rfl

theorem ppu_frame_clock_witness :
    (∀ i, (MemoryBus.new []).vram i < 256) ∧
    Nat.testBit (MemoryBus.new []).lcd.lcd_control 7 = true ∧
    ∃ p' bus' fb',
      PPU.run (PPU.default, MemoryBus.new [], fun _ => 0) [70224] =
        some (p', bus', fb') ∧
      bus'.lcd.lcd_y = (List.sum [70224] / 456) % 154 ∧
      p'.mode_clock = List.sum [70224] % 456 ∧
      (p'.updated = true ↔ 65664 ≤ List.sum [70224]) :=
  ⟨fun i => by show (0:Nat) < 256; decide, by decide,
    ppu_frame_clock (MemoryBus.new []) (fun _ => 0) [70224]
      (fun i => by show (0:Nat) < 256; decide) (by decide) rfl (by decide)⟩

end GB
